import Mathlib

/-! # zlog level records and the level registry (`libzlog/level.c`)

A shallow embedding of `src/libzlog/level.c`.

* A C `char` is a `Char`; a C string is the `List Char` of the characters
  before its terminating NUL (`cstr` cuts a list at the first NUL).
* `int` values are `Int`; the value `%d` stores is the `strtol` value of the
  digits (saturated to a 64-bit `long`) reduced to 32 bits.
* Locals that the C code reads without having initialised them are inputs of
  the embedding (`locals_t`): their values are indeterminate in C.
* Memory allocation (`calloc`, growth of the array list) is taken to succeed.
* The scratch buffers `str` and `sl` (`MAXLEN_CFG_LINE + 1` bytes each) are
  taken to be large enough for the line being scanned.
-/

namespace Zlog

/-! ## Characters and C library functions -/

/-- `isspace` in the "C" locale: space, `\t`, `\n`, `\v`, `\f`, `\r`. -/
def isspace (c : Char) : Bool :=
  c = ' ' || c = '\t' || c = '\n' || c = '\x0b' || c = '\x0c' || c = '\r'

/-- `isdigit`. -/
def isdigit (c : Char) : Bool := decide ('0' ≤ c) && decide (c ≤ '9')

/-- `toupper` in the "C" locale. -/
def toupper (c : Char) : Char :=
  if 'a' ≤ c ∧ c ≤ 'z' then Char.ofNat (c.toNat - 32) else c

/-- `tolower` in the "C" locale. -/
def tolower (c : Char) : Char :=
  if 'A' ≤ c ∧ c ≤ 'Z' then Char.ofNat (c.toNat + 32) else c

/-- The characters of a `char *` argument: everything before the first NUL. -/
def cstr (s : List Char) : List Char := s.takeWhile (fun c => c != '\x00')

/-- Modelled from the spec: the macro `STRICMP(a, ==, b)` of `zc_defs.h`, a
"case-insensitive match" (`strcasecmp(a, b) == 0`): the two strings agree
character by character after `tolower`. -/
def STRICMP_eq (a b : List Char) : Bool := a.map tolower == b.map tolower

/-- The value `strtol` returns for a decimal string of value `v`, `long`
having 64 bits: `v` itself, or `LONG_MIN` / `LONG_MAX` when `v` lies below /
above the range of `long`. -/
def strtol_clamp (v : Int) : Int :=
  if v < -9223372036854775808 then -9223372036854775808
  else if 9223372036854775807 < v then 9223372036854775807
  else v

/-- Storing the value of a `%d` conversion in an `int`, as the C library does
it (glibc, 64-bit `long`): the digits are converted by `strtol`, which
saturates at `LONG_MIN` / `LONG_MAX`, and the `long` is converted to `int`,
which keeps its low 32 bits in two's complement. The result is the value
itself when an `int` can represent it. -/
def int_wrap (v : Int) : Int :=
  (strtol_clamp v + 2147483648) % 4294967296 - 2147483648

/-! ## `syslog.h` priorities

The eight priority values of `<syslog.h>`. -/

def LOG_EMERG : Int := 0
def LOG_ALERT : Int := 1
def LOG_CRIT : Int := 2
def LOG_ERR : Int := 3
def LOG_WARNING : Int := 4
def LOG_NOTICE : Int := 5
def LOG_INFO : Int := 6
def LOG_DEBUG : Int := 7

/-! ## `sscanf(line, " %[^= ] = %d ,%s", str, &l, sl)` -/

/-- A white-space directive of a scanf format: skips any run of white space. -/
def skip_space (s : List Char) : List Char := s.dropWhile isspace

/-- Membership in the scan set `[^= ]`. -/
def in_scanset (c : Char) : Bool := c != '=' && c != ' '

/-- Value of a run of decimal digits, most significant first. -/
def dec_val (ds : List Char) : Nat :=
  ds.foldl (fun acc c => 10 * acc + (c.toNat - 48)) 0

/-- The digits of a `%d` conversion, after its optional sign: `none` when
there is no digit (matching failure), else the value and the rest of the input. -/
def scan_digits (s : List Char) : Option (Nat × List Char) :=
  match s.takeWhile isdigit with
  | [] => none
  | ds => some (dec_val ds, s.dropWhile isdigit)

/-- The `%d` conversion, on input whose leading white space is already
skipped: optional sign, then one or more decimal digits. -/
def scan_int (s : List Char) : Option (Int × List Char) :=
  match s with
  | '-' :: t => (scan_digits t).map (fun r => (int_wrap (-(r.1 : Int)), r.2))
  | '+' :: t => (scan_digits t).map (fun r => (int_wrap (r.1 : Int), r.2))
  | _ => (scan_digits s).map (fun r => (int_wrap (r.1 : Int), r.2))

/-- The `%s` conversion: skips white space, then takes the run of characters
up to the next white space; `none` when the input ends first. -/
def scan_str (s : List Char) : Option (List Char × List Char) :=
  match (skip_space s).takeWhile (fun c => !isspace c) with
  | [] => none
  | tok => some (tok, (skip_space s).dropWhile (fun c => !isspace c))

/-- What the `sscanf` call leaves behind: its return value and the contents
of the three destinations. -/
structure scan_t where
  nscan : Int
  str : List Char
  l : Int
  sl : List Char
deriving DecidableEq, Repr

/-- The call `sscanf(line, " %[^= ] = %d ,%s", str, &l, sl)` of
`zlog_level_new`. `str0`, `l0`, `sl0` are the contents of the destinations
before the call; a destination whose conversion is not reached keeps them.
The return value is the number of conversions stored, or `EOF` (-1) when the
input ends before the first conversion. -/
def sscanf_level (line str0 : List Char) (l0 : Int) (sl0 : List Char) : scan_t :=
  let s := skip_space line
  match s.takeWhile in_scanset with
  | [] => ⟨if s = [] then -1 else 0, str0, l0, sl0⟩
  | str =>
    match skip_space (s.dropWhile in_scanset) with
    | '=' :: s1 =>
      match scan_int (skip_space s1) with
      | none => ⟨1, str, l0, sl0⟩
      | some (l, s2) =>
        match skip_space s2 with
        | ',' :: s3 =>
          match scan_str s3 with
          | none => ⟨2, str, l, sl0⟩
          | some (sl, _) => ⟨3, str, l, sl⟩
        | _ => ⟨2, str, l, sl0⟩
    | _ => ⟨1, str, l0, sl0⟩

/-! ## Level records -/

/-- Modelled from the spec: the struct `zlog_level_t` of `level.h`, the "Level
Record" with its numeric code, its name in upper and in lower case, the
length of the name and the syslog priority; the fields carry the names
`level.c` uses. The two name buffers hold C strings. -/
structure zlog_level_t where
  int_level : Int
  str_uppercase : List Char
  str_lowercase : List Char
  str_len : Nat
  syslog_level : Int
deriving DecidableEq, Repr

/-- The record `calloc` returns: every byte zero. -/
def calloc_level : zlog_level_t := ⟨0, [], [], 0, 0⟩

/-- The function `syslog_level_atoi`. -/
def syslog_level_atoi (str : List Char) : Int :=
  if STRICMP_eq str "LOG_EMERG".toList then LOG_EMERG
  else if STRICMP_eq str "LOG_ALERT".toList then LOG_ALERT
  else if STRICMP_eq str "LOG_CRIT".toList then LOG_CRIT
  else if STRICMP_eq str "LOG_ERR".toList then LOG_ERR
  else if STRICMP_eq str "LOG_WARNING".toList then LOG_WARNING
  else if STRICMP_eq str "LOG_NOTICE".toList then LOG_NOTICE
  else if STRICMP_eq str "LOG_INFO".toList then LOG_INFO
  else if STRICMP_eq str "LOG_DEBUG".toList then LOG_DEBUG
  else -187

/-- The locals of `zlog_level_new` that it declares without an initialiser
(`int rc; char str[..]; int l; char sl[..];`): their indeterminate contents
when the function is entered. -/
structure locals_t where
  rc : Int
  str : List Char
  l : Int
  sl : List Char
deriving DecidableEq, Repr

/-- The copy loop of `zlog_level_new`,
`for (i = 0; (i < sizeof(str_uppercase) - 1) && str[i] != '\0'; i++)`,
started at index `i` with `str` the characters from index `i` on and `up`,
`lo` what the two buffers hold so far; `cap` is `sizeof(str_uppercase) - 1`.
Returns the final `i`, the two buffers and the characters of `str` from the
final `i` on (empty exactly when `str[i] == '\0'`). -/
def copy_loop (cap : Nat) : List Char → Nat → List Char → List Char →
    Nat × List Char × List Char × List Char
  | [], i, up, lo => (i, up, lo, [])
  | c :: cs, i, up, lo =>
    if i < cap then copy_loop cap cs (i + 1) (up ++ [toupper c]) (lo ++ [tolower c])
    else (i, up, lo, c :: cs)

/-- The label `zlog_level_new_exit`: the record is deleted and `NULL`
returned when `rc` is non-zero, else the record is returned. -/
def zlog_level_new_exit (rc : Int) (a_level : zlog_level_t) : Option zlog_level_t :=
  if rc ≠ 0 then none else some a_level

/-- The end of `zlog_level_new`, from the copy loop to the return: the name is
copied in both cases; when the loop stopped before the end of `str`
(overflow) `rc` is set to -1, else both buffers are terminated, `str_len` is
set and `rc` is left as it was (`rc0`); then the exit label. -/
def zlog_level_new_copy (B : Nat) (rc0 : Int) (str : List Char) (a_level : zlog_level_t) :
    Option zlog_level_t :=
  match copy_loop (B - 1) str 0 [] [] with
  | (_, _, _, _ :: _) => zlog_level_new_exit (-1) a_level
  | (i, up, lo, []) =>
    zlog_level_new_exit rc0
      { a_level with str_uppercase := up, str_lowercase := lo, str_len := i }

/-- The function `zlog_level_new`. `B` is `sizeof(a_level->str_uppercase)`
(the size of both name buffers, from `level.h`) and `u` holds the
indeterminate initial contents of the uninitialised locals. `none` is `NULL`. -/
def zlog_level_new (B : Nat) (u : locals_t) (line : List Char) : Option zlog_level_t :=
  let r := sscanf_level (cstr line) u.str u.l u.sl
  if r.nscan < 2 then none
  else if r.l < 0 ∨ r.l > 255 then none
  else if r.str = [] then none
  else
    let a_level : zlog_level_t := { calloc_level with int_level := r.l }
    if r.sl = [] then
      zlog_level_new_copy B u.rc r.str { a_level with syslog_level := LOG_DEBUG }
    else
      let a_level : zlog_level_t := { a_level with syslog_level := syslog_level_atoi r.sl }
      if a_level.syslog_level = -187 then zlog_level_new_exit (-1) a_level
      else zlog_level_new_copy B u.rc r.str a_level

/-! ## The level registry

The functions below stand between `#if 0` and `#endif` in `level.c`; they are
embedded from their text. The array list they use (`zc_arraylist.c`) is not
part of the source at hand.
-/

/-- Modelled from the spec: the array list `zc_arraylist_t` holding the
registry, "a sparse table of Level Records indexed 0-255", as the list of
its slots; an unpopulated slot is `none` (a `NULL` entry). -/
abbrev zc_arraylist_t := List (Option zlog_level_t)

/-- Modelled from the spec: `zc_arraylist_new`, "initializes an empty sparse
table". -/
def zc_arraylist_new : zc_arraylist_t := []

/-- Modelled from the spec: `zc_arraylist_get`, "an unpopulated slot returns
no record when queried directly"; so does an index the table does not have. -/
def zc_arraylist_get (a_list : zc_arraylist_t) (idx : Int) : Option zlog_level_t :=
  if idx < 0 then none else a_list.getD idx.toNat none

/-- Modelled from the spec: `zc_arraylist_set`, "insert the resulting record
into the table at index `code`, overwriting any existing record at that
index"; the table grows to hold the index and the call returns 0. -/
def zc_arraylist_set (a_list : zc_arraylist_t) (idx : Int) (data : zlog_level_t) :
    Int × zc_arraylist_t :=
  (0, (a_list ++ List.replicate (idx.toNat + 1 - a_list.length) none).set idx.toNat
    (some data))

/-- The function `zlog_level_set_inner`: the return value and the table
afterwards. `u` holds the indeterminate locals of the `zlog_level_new` call. -/
def zlog_level_set_inner (B : Nat) (u : locals_t) (levels : zc_arraylist_t)
    (line : List Char) : Int × zc_arraylist_t :=
  match zlog_level_new B u line with
  | none => (-1, levels)
  | some a_level =>
    let (rc, levels) := zc_arraylist_set levels a_level.int_level a_level
    if rc ≠ 0 then (-1, levels) else (0, levels)

/-- The test `a_level && STRICMP(str, ==, a_level->str_uppercase)` of
`zlog_level_atoi`: the slot is populated and its stored name equals `str`
ignoring case. -/
def slot_matches (str : List Char) (a_level : Option zlog_level_t) : Bool :=
  match a_level with
  | some lv => STRICMP_eq str lv.str_uppercase
  | none => false

/-- The loop `zc_arraylist_foreach(zlog_env_levels, i, a_level)` of
`zlog_level_atoi`, from index `i` on, `slots` being the slots from `i` on:
the index of the first slot that passes the test, and -1 when the loop runs
out. -/
def zlog_level_atoi_loop (str : List Char) : List (Option zlog_level_t) → Nat → Int
  | [], _ => -1
  | a_level :: slots, i =>
    if slot_matches str a_level then (i : Int)
    else zlog_level_atoi_loop str slots (i + 1)

/-- The function `zlog_level_atoi` on the registry `levels` (the global
`zlog_env_levels`); `str = none` is the `NULL` pointer. -/
def zlog_level_atoi (levels : zc_arraylist_t) (str : Option (List Char)) : Int :=
  match str with
  | none => -1
  | some s =>
    if cstr s = [] then -1
    else zlog_level_atoi_loop (cstr s) levels 0

/-- The function `zlog_level_get` on the registry `levels`, together with the
indices it passes to `zc_arraylist_get`, in order. -/
def zlog_level_get_run (levels : zc_arraylist_t) (p : Int) :
    Option zlog_level_t × List Int :=
  let p := if p ≤ 0 ∨ p > 254 then 254 else p
  match zc_arraylist_get levels p with
  | some a_level => (some a_level, [p])
  | none => (zc_arraylist_get levels 254, [p, 254])

/-- The function `zlog_level_get`: its return value (`none` is `NULL`). -/
def zlog_level_get (levels : zc_arraylist_t) (p : Int) : Option zlog_level_t :=
  (zlog_level_get_run levels p).1

/-- The function `zlog_levels_set_default`; `us k` holds the indeterminate
locals of the `k`-th `zlog_level_new` call. The `||` chain stops at the first
call that returns non-zero and then yields 1, else it yields 0. -/
def zlog_levels_set_default (B : Nat) (us : Nat → locals_t) (levels : zc_arraylist_t) :
    Int × zc_arraylist_t :=
  let r := zlog_level_set_inner B (us 0) levels "* = 0, LOG_INFO".toList
  if r.1 ≠ 0 then (1, r.2) else
  let r := zlog_level_set_inner B (us 1) r.2 "DEBUG = 20, LOG_DEBUG".toList
  if r.1 ≠ 0 then (1, r.2) else
  let r := zlog_level_set_inner B (us 2) r.2 "INFO = 40, LOG_INFO".toList
  if r.1 ≠ 0 then (1, r.2) else
  let r := zlog_level_set_inner B (us 3) r.2 "NOTICE = 60, LOG_NOTICE".toList
  if r.1 ≠ 0 then (1, r.2) else
  let r := zlog_level_set_inner B (us 4) r.2 "WARN = 80, LOG_WARNING".toList
  if r.1 ≠ 0 then (1, r.2) else
  let r := zlog_level_set_inner B (us 5) r.2 "ERROR = 100, LOG_ERR".toList
  if r.1 ≠ 0 then (1, r.2) else
  let r := zlog_level_set_inner B (us 6) r.2 "FATAL = 120, LOG_ALERT".toList
  if r.1 ≠ 0 then (1, r.2) else
  let r := zlog_level_set_inner B (us 7) r.2 "UNKNOWN = 254, LOG_ERR".toList
  if r.1 ≠ 0 then (1, r.2) else
  let r := zlog_level_set_inner B (us 8) r.2 "! = 255, LOG_INFO".toList
  if r.1 ≠ 0 then (1, r.2) else (0, r.2)

/-- The function `zlog_levels_fini` on the global `zlog_env_levels` (`none` is
`NULL`): the table, if any, is deleted and the global set to `NULL`. -/
def zlog_levels_fini (_env : Option zc_arraylist_t) : Option zc_arraylist_t := none

/-- The function `zlog_levels_init`: its return value and the global
`zlog_env_levels` afterwards; `env` is the global before the call. -/
def zlog_levels_init (B : Nat) (us : Nat → locals_t) (env : Option zc_arraylist_t) :
    Int × Option zc_arraylist_t :=
  let levels := zc_arraylist_new
  let r := zlog_levels_set_default B us levels
  let rc := if r.1 ≠ 0 then -1 else r.1
  if rc ≠ 0 then (-1, env) else (0, some r.2)

/-- The function `zlog_levels_reset`: its return value and the global
`zlog_env_levels` afterwards; `env` is the global before the call. -/
def zlog_levels_reset (B : Nat) (us : Nat → locals_t) (env : Option zc_arraylist_t) :
    Int × Option zc_arraylist_t :=
  let levels := zc_arraylist_new
  let r := zlog_levels_set_default B us levels
  let rc := if r.1 ≠ 0 then -1 else r.1
  if rc ≠ 0 then (-1, env)
  else
    let _env := zlog_levels_fini env
    (0, some r.2)

/-- The function `zlog_level_set` on an initialised registry `levels` (the
table `zlog_env_levels` points to): its return value and the table afterwards. -/
def zlog_level_set (B : Nat) (u : locals_t) (levels : zc_arraylist_t) (line : List Char) :
    Int × zc_arraylist_t :=
  let r := zlog_level_set_inner B u levels line
  if r.1 ≠ 0 then (-1, r.2) else (0, r.2)

/-- The registry `zlog_levels_set_default` fills in from the empty table when
every one of its nine `zlog_level_new` calls reads `rc` as 0 at the exit
test (computed with 1025-byte name buffers). -/
def default_levels : zc_arraylist_t :=
  (zlog_levels_set_default 1025 (fun _ => ⟨0, [], 0, []⟩) zc_arraylist_new).2

/-! ## Definitions used to state the properties -/

/-- The record `zlog_level_new` builds from a scan result that passes every
check. -/
def level_of_scan (r : scan_t) : zlog_level_t :=
  { int_level := r.l
    str_uppercase := r.str.map toupper
    str_lowercase := r.str.map tolower
    str_len := r.str.length
    syslog_level := if r.sl = [] then LOG_DEBUG else syslog_level_atoi r.sl }

/-- The eight syslog names of the configuration syntax, each with the priority
it names. -/
def syslog_names : List (List Char × Int) :=
  [("LOG_EMERG".toList, LOG_EMERG), ("LOG_ALERT".toList, LOG_ALERT),
   ("LOG_CRIT".toList, LOG_CRIT), ("LOG_ERR".toList, LOG_ERR),
   ("LOG_WARNING".toList, LOG_WARNING), ("LOG_NOTICE".toList, LOG_NOTICE),
   ("LOG_INFO".toList, LOG_INFO), ("LOG_DEBUG".toList, LOG_DEBUG)]

/-- The value of a decimal integer token: an optional sign followed by one or
more decimal digits; `none` for any other token. -/
def dec_int_val (tok : List Char) : Option Int :=
  match tok with
  | '-' :: ds => if ds ≠ [] ∧ ds.all isdigit = true then some (-(dec_val ds : Int)) else none
  | '+' :: ds => if ds ≠ [] ∧ ds.all isdigit = true then some (dec_val ds : Int) else none
  | ds => if ds ≠ [] ∧ ds.all isdigit = true then some (dec_val ds : Int) else none

/-- A call made on an initialised registry: `zlog_level_set(line)` or
`zlog_levels_reset()`, each with the indeterminate locals of the
`zlog_level_new` calls it makes. -/
inductive call_t where
  | set (u : locals_t) (line : List Char)
  | reset (us : Nat → locals_t)

/-- The registry after one call on the registry `levels`. -/
def zlog_call (B : Nat) (levels : zc_arraylist_t) : call_t → zc_arraylist_t
  | .set u line => (zlog_level_set B u levels line).2
  | .reset us =>
    match (zlog_levels_reset B us (some levels)).2 with
    | some levels2 => levels2
    | none => levels

/-- The registry after a sequence of calls, first call first. -/
def zlog_calls (B : Nat) (levels : zc_arraylist_t) (calls : List call_t) : zc_arraylist_t :=
  calls.foldl (zlog_call B) levels

/-- The default level set as the spec lists it: the content of slot `i`. -/
def default_slot (i : Nat) : Option zlog_level_t :=
  if i = 0 then some ⟨0, "*".toList, "*".toList, 1, LOG_INFO⟩
  else if i = 20 then some ⟨20, "DEBUG".toList, "debug".toList, 5, LOG_DEBUG⟩
  else if i = 40 then some ⟨40, "INFO".toList, "info".toList, 4, LOG_INFO⟩
  else if i = 60 then some ⟨60, "NOTICE".toList, "notice".toList, 6, LOG_NOTICE⟩
  else if i = 80 then some ⟨80, "WARN".toList, "warn".toList, 4, LOG_WARNING⟩
  else if i = 100 then some ⟨100, "ERROR".toList, "error".toList, 5, LOG_ERR⟩
  else if i = 120 then some ⟨120, "FATAL".toList, "fatal".toList, 5, LOG_ALERT⟩
  else if i = 254 then some ⟨254, "UNKNOWN".toList, "unknown".toList, 7, LOG_ERR⟩
  else if i = 255 then some ⟨255, "!".toList, "!".toList, 1, LOG_INFO⟩
  else none

/-- The slot-index invariant of a registry: a populated slot `i` holds a
record whose `int_level` is `i`, and `i` is at most 255. -/
def slot_index_inv (levels : zc_arraylist_t) : Prop :=
  ∀ (i : Nat) (a : zlog_level_t), levels[i]? = some (some a) →
    a.int_level = (i : Int) ∧ i ≤ 255

/-! ## Basic facts about the embedding -/

theorem copy_loop_eq (cap : Nat) (str : List Char) (i : Nat) (up lo : List Char) :
    copy_loop cap str i up lo =
      (i + min (cap - i) str.length, up ++ (str.take (cap - i)).map toupper,
        lo ++ (str.take (cap - i)).map tolower, str.drop (cap - i)) := by
  induction str generalizing i up lo with
  | nil => simp [copy_loop]
  | cons c cs ih =>
    unfold copy_loop
    by_cases h : i < cap
    · rw [if_pos h, ih]
      obtain ⟨k, hk⟩ : ∃ k, cap - i = k + 1 := ⟨cap - i - 1, by omega⟩
      have hk2 : cap - (i + 1) = k := by omega
      rw [hk, hk2]
      simp only [List.take_succ_cons, List.map_cons, List.drop_succ_cons, List.length_cons,
        List.append_assoc, List.singleton_append, Prod.mk.injEq, and_true]
      omega
    · rw [if_neg h]
      have h0 : cap - i = 0 := by omega
      simp [h0]

theorem copy_loop_zero (cap : Nat) (str : List Char) :
    copy_loop cap str 0 [] [] =
      (min cap str.length, (str.take cap).map toupper, (str.take cap).map tolower,
        str.drop cap) := by
  rw [copy_loop_eq]; simp

/-- Closed form of `zlog_level_new`: the list of its failure conditions, in
the order of the code, and the record it returns when none holds. -/
theorem zlog_level_new_eq (B : Nat) (u : locals_t) (line : List Char) :
    zlog_level_new B u line =
      (let r := sscanf_level (cstr line) u.str u.l u.sl
       if r.nscan < 2 then none
       else if r.l < 0 ∨ r.l > 255 then none
       else if r.str = [] then none
       else if r.sl ≠ [] ∧ syslog_level_atoi r.sl = -187 then none
       else if B - 1 < r.str.length then none
       else if u.rc ≠ 0 then none
       else some (level_of_scan r)) := by
  unfold zlog_level_new
  generalize sscanf_level (cstr line) u.str u.l u.sl = r
  have hcopy : ∀ a : zlog_level_t, zlog_level_new_copy B u.rc r.str a =
      if B - 1 < r.str.length then none
      else if u.rc ≠ 0 then none
      else some { a with str_uppercase := r.str.map toupper,
                         str_lowercase := r.str.map tolower, str_len := r.str.length } := by
    intro a
    unfold zlog_level_new_copy
    rw [copy_loop_zero]
    by_cases h5 : B - 1 < r.str.length
    · obtain ⟨c, cs, hc⟩ : ∃ c cs, List.drop (B - 1) r.str = c :: cs := by
        cases hdr : List.drop (B - 1) r.str with
        | nil => simp at hdr; omega
        | cons c cs => exact ⟨c, cs, rfl⟩
      rw [if_pos h5]
      simp [hc, zlog_level_new_exit]
    · have hdr : List.drop (B - 1) r.str = [] := by simp; omega
      have htk : List.take (B - 1) r.str = r.str := by simp; omega
      have hmin : min (B - 1) r.str.length = r.str.length := by omega
      rw [if_neg h5]
      simp only [hdr, htk, hmin, zlog_level_new_exit]
  simp only [hcopy]
  by_cases h1 : r.nscan < 2
  · simp [h1]
  by_cases h2 : r.l < 0 ∨ r.l > 255
  · simp [h1, h2]
  by_cases h3 : r.str = []
  · simp [h1, h2, h3]
  simp only [h1, h2, h3, if_false]
  by_cases h4 : r.sl = []
  · have h6 : ¬ (r.sl ≠ [] ∧ syslog_level_atoi r.sl = -187) := fun h => h.1 h4
    rw [if_pos h4, if_neg h6]
    simp only [level_of_scan, calloc_level, h4, if_true]
  · rw [if_neg h4]
    by_cases h7 : syslog_level_atoi r.sl = -187
    · have h6 : r.sl ≠ [] ∧ syslog_level_atoi r.sl = -187 := ⟨h4, h7⟩
      rw [if_pos h6]
      simp [h7, zlog_level_new_exit]
    · have h6 : ¬ (r.sl ≠ [] ∧ syslog_level_atoi r.sl = -187) := fun h => h7 h.2
      rw [if_neg h6]
      simp only [h7, if_false, level_of_scan, calloc_level, h4]

/-! ## Facts about the scan -/

theorem takeWhile_append_stop {p : Char → Bool} {xs rest : List Char}
    (hxs : ∀ c ∈ xs, p c = true) (hr : ∀ c ∈ rest.head?, p c = false) :
    (xs ++ rest).takeWhile p = xs := by
  induction xs with
  | nil =>
    cases rest with
    | nil => rfl
    | cons c r => simp [List.takeWhile, hr c (by simp)]
  | cons x xs ih =>
    have hx : p x = true := hxs x (by simp)
    have h := ih (fun c hc => hxs c (by simp [hc]))
    simp [List.takeWhile_cons, hx, h]

theorem dropWhile_append_stop {p : Char → Bool} {xs rest : List Char}
    (hxs : ∀ c ∈ xs, p c = true) (hr : ∀ c ∈ rest.head?, p c = false) :
    (xs ++ rest).dropWhile p = rest := by
  induction xs with
  | nil =>
    cases rest with
    | nil => rfl
    | cons c r => simp [List.dropWhile, hr c (by simp)]
  | cons x xs ih =>
    have hx : p x = true := hxs x (by simp)
    have h := ih (fun c hc => hxs c (by simp [hc]))
    simp [List.dropWhile_cons, hx, h]

theorem skip_space_append {ws rest : List Char} (hws : ∀ c ∈ ws, isspace c = true)
    (hr : ∀ c ∈ rest.head?, isspace c = false) : skip_space (ws ++ rest) = rest :=
  dropWhile_append_stop hws hr

theorem cstr_eq_self {s : List Char} (h : ∀ c ∈ s, c ≠ '\x00') : cstr s = s := by
  unfold cstr
  rw [List.takeWhile_eq_self_iff]
  intro c hc
  simpa using h c hc

theorem isspace_of_isdigit {c : Char} (h : isdigit c = true) : isspace c = false := by
  cases hs : isspace c with
  | false => rfl
  | true =>
    simp only [isspace, Bool.or_eq_true, decide_eq_true_eq] at hs
    rcases hs with ((((rfl | rfl) | rfl) | rfl) | rfl) | rfl <;> exact absurd h (by decide)

theorem ne_nul_of_isspace {c : Char} (h : isspace c = true) : c ≠ '\x00' := by
  rintro rfl; exact absurd h (by decide)

theorem ne_nul_of_isdigit {c : Char} (h : isdigit c = true) : c ≠ '\x00' := by
  rintro rfl; exact absurd h (by decide)

theorem scan_digits_append {ds rest : List Char} (hC : ds ≠ [])
    (hCd : ∀ c ∈ ds, isdigit c = true) (hrest : ∀ c ∈ rest.head?, isdigit c = false) :
    scan_digits (ds ++ rest) = some (dec_val ds, rest) := by
  unfold scan_digits
  rw [takeWhile_append_stop hCd hrest, dropWhile_append_stop hCd hrest]
  obtain ⟨d, ds, rfl⟩ := List.exists_cons_of_ne_nil hC
  rfl

theorem scan_int_append {ds rest : List Char} (hC : ds ≠ [])
    (hCd : ∀ c ∈ ds, isdigit c = true) (hrest : ∀ c ∈ rest.head?, isdigit c = false) :
    scan_int (ds ++ rest) = some (int_wrap (dec_val ds), rest) := by
  obtain ⟨d, ds, rfl⟩ := List.exists_cons_of_ne_nil hC
  have hd : isdigit d = true := hCd d (by simp)
  have h := @scan_digits_append (d :: ds) rest (by simp) hCd hrest
  unfold scan_int
  split
  · rename_i t heq
    simp at heq
    obtain ⟨rfl, _⟩ := heq
    exact absurd hd (by decide)
  · rename_i t heq
    simp at heq
    obtain ⟨rfl, _⟩ := heq
    exact absurd hd (by decide)
  · rw [h]; rfl

theorem scan_int_token {tok rest : List Char} {v : Int} (h : dec_int_val tok = some v)
    (hrest : ∀ c ∈ rest.head?, isdigit c = false) :
    scan_int (tok ++ rest) = some (int_wrap v, rest) ∧
      (∀ c ∈ (tok ++ rest).head?, isspace c = false) ∧ (∀ c ∈ tok, c ≠ '\x00') := by
  unfold dec_int_val at h
  split at h
  · rename_i ds
    split_ifs at h with hc
    simp only [Option.some.injEq] at h
    subst h
    have hd : ∀ c ∈ ds, isdigit c = true := by simpa using hc.2
    have e := scan_digits_append hc.1 hd hrest
    refine ⟨?_, ?_, ?_⟩
    · simp only [scan_int, List.cons_append, e, Option.map_some']
    · intro c hc2; simp at hc2; subst hc2; decide
    · intro c hc2
      rcases List.mem_cons.mp hc2 with rfl | h2
      · decide
      · exact ne_nul_of_isdigit (hd c h2)
  · rename_i ds
    split_ifs at h with hc
    simp only [Option.some.injEq] at h
    subst h
    have hd : ∀ c ∈ ds, isdigit c = true := by simpa using hc.2
    have e := scan_digits_append hc.1 hd hrest
    refine ⟨?_, ?_, ?_⟩
    · simp only [scan_int, List.cons_append, e, Option.map_some']
    · intro c hc2; simp at hc2; subst hc2; decide
    · intro c hc2
      rcases List.mem_cons.mp hc2 with rfl | h2
      · decide
      · exact ne_nul_of_isdigit (hd c h2)
  · rename_i ds hm hp
    split_ifs at h with hc
    simp only [Option.some.injEq] at h
    subst h
    have hd : ∀ c ∈ tok, isdigit c = true := by simpa using hc.2
    refine ⟨scan_int_append hc.1 hd hrest, ?_, fun c hc2 => ne_nul_of_isdigit (hd c hc2)⟩
    obtain ⟨d, ds2, rfl⟩ := List.exists_cons_of_ne_nil hc.1
    intro c hc2
    simp at hc2; subst hc2
    exact isspace_of_isdigit (hd d (by simp))

/-- The scan of a line made of white space, a name, white space, `=`, white
space, a run of digits and a remainder that does not go on with a digit: the
first two conversions are stored and the remainder decides the third. -/
theorem sscanf_level_upto_code (ws1 NAME ws2 ws3 CODE rest str0 : List Char) (l0 : Int)
    (sl0 : List Char) (v : Int)
    (hws1 : ∀ c ∈ ws1, isspace c = true)
    (hN : NAME ≠ []) (hNset : ∀ c ∈ NAME, c ≠ '=' ∧ c ≠ ' ')
    (hNh : ∀ c ∈ NAME.head?, isspace c = false)
    (hws2 : ∀ c ∈ ws2, isspace c = true) (hws2h : ∀ c ∈ ws2.head?, c = ' ')
    (hws3 : ∀ c ∈ ws3, isspace c = true)
    (hC : dec_int_val CODE = some v)
    (hrest : ∀ c ∈ rest.head?, isdigit c = false) :
    sscanf_level (ws1 ++ NAME ++ ws2 ++ '=' :: ws3 ++ CODE ++ rest) str0 l0 sl0 =
      (match skip_space rest with
        | ',' :: s3 =>
          match scan_str s3 with
          | none => ⟨2, NAME, int_wrap v, sl0⟩
          | some (sl, _) => ⟨3, NAME, int_wrap v, sl⟩
        | _ => ⟨2, NAME, int_wrap v, sl0⟩) := by
  obtain ⟨n, ns, rfl⟩ := List.exists_cons_of_ne_nil hN
  have hn : isspace n = false := hNh n (by simp)
  have e1 : skip_space (ws1 ++ (n :: ns) ++ ws2 ++ '=' :: ws3 ++ CODE ++ rest) =
      (n :: ns) ++ (ws2 ++ '=' :: (ws3 ++ CODE ++ rest)) := by
    have : ws1 ++ (n :: ns) ++ ws2 ++ '=' :: ws3 ++ CODE ++ rest =
        ws1 ++ ((n :: ns) ++ (ws2 ++ '=' :: (ws3 ++ CODE ++ rest))) := by simp
    rw [this]
    exact skip_space_append hws1 (by simpa using hn)
  have hstop : ∀ c ∈ (ws2 ++ '=' :: (ws3 ++ CODE ++ rest)).head?,
      in_scanset c = false := by
    intro c hc
    cases ws2 with
    | nil => simp at hc; subst hc; rfl
    | cons w ws =>
      have hw : w = ' ' := hws2h w (by simp)
      simp at hc; subst hc; subst hw; rfl
  have hin : ∀ c ∈ n :: ns, in_scanset c = true := by
    intro c hc
    have := hNset c hc
    simp [in_scanset, this.1, this.2]
  have e2 := takeWhile_append_stop hin hstop
  have e3 := dropWhile_append_stop hin hstop
  have e4 : skip_space (ws2 ++ '=' :: (ws3 ++ CODE ++ rest)) =
      '=' :: (ws3 ++ CODE ++ rest) :=
    skip_space_append hws2 (by simp [isspace])
  obtain ⟨e6, hhead, _⟩ := scan_int_token hC hrest
  have e5 : skip_space (ws3 ++ CODE ++ rest) = CODE ++ rest := by
    rw [List.append_assoc]
    exact skip_space_append hws3 hhead
  unfold sscanf_level
  simp only [e1, e2, e3, e4, e5, e6]

theorem scan_str_token {ws tok rest : List Char} (hws : ∀ c ∈ ws, isspace c = true)
    (ht : tok ≠ []) (htok : ∀ c ∈ tok, isspace c = false)
    (hrest : ∀ c ∈ rest.head?, isspace c = true) :
    scan_str (ws ++ tok ++ rest) = some (tok, rest) := by
  obtain ⟨t, ts, rfl⟩ := List.exists_cons_of_ne_nil ht
  have ht0 : isspace t = false := htok t (by simp)
  have e1 : skip_space (ws ++ (t :: ts) ++ rest) = (t :: ts) ++ rest := by
    rw [List.append_assoc]
    exact skip_space_append hws (by simpa using ht0)
  have hin : ∀ c ∈ t :: ts, (fun c => !isspace c) c = true := by
    intro c hc; simp [htok c hc]
  have hst : ∀ c ∈ rest.head?, (fun c => !isspace c) c = false := by
    intro c hc; simp [hrest c hc]
  unfold scan_str
  rw [e1, takeWhile_append_stop hin hst, dropWhile_append_stop hin hst]

/-- The scan of a complete line `NAME = CODE , TOKEN`: three conversions. -/
theorem sscanf_level_full (ws1 NAME ws2 ws3 CODE ws4 ws5 TOK ws6 str0 : List Char)
    (l0 : Int) (sl0 : List Char) (v : Int)
    (hws1 : ∀ c ∈ ws1, isspace c = true)
    (hN : NAME ≠ []) (hNset : ∀ c ∈ NAME, c ≠ '=' ∧ c ≠ ' ')
    (hNh : ∀ c ∈ NAME.head?, isspace c = false)
    (hws2 : ∀ c ∈ ws2, isspace c = true) (hws2h : ∀ c ∈ ws2.head?, c = ' ')
    (hws3 : ∀ c ∈ ws3, isspace c = true)
    (hC : dec_int_val CODE = some v)
    (hws4 : ∀ c ∈ ws4, isspace c = true) (hws5 : ∀ c ∈ ws5, isspace c = true)
    (hT : TOK ≠ []) (hTs : ∀ c ∈ TOK, isspace c = false)
    (hws6 : ∀ c ∈ ws6, isspace c = true) :
    sscanf_level (ws1 ++ NAME ++ ws2 ++ '=' :: ws3 ++ CODE ++ (ws4 ++ ',' :: (ws5 ++ TOK ++ ws6)))
      str0 l0 sl0 = ⟨3, NAME, int_wrap v, TOK⟩ := by
  have hrest : ∀ c ∈ (ws4 ++ ',' :: (ws5 ++ TOK ++ ws6)).head?, isdigit c = false := by
    intro c hc
    cases ws4 with
    | nil => simp at hc; subst hc; rfl
    | cons w ws =>
      simp at hc; subst hc
      have hw : isspace w = true := hws4 w (by simp)
      cases hd : isdigit w with
      | false => rfl
      | true => rw [isspace_of_isdigit hd] at hw; exact absurd hw (by simp)
  rw [sscanf_level_upto_code ws1 NAME ws2 ws3 CODE _ str0 l0 sl0 v hws1 hN hNset hNh hws2
    hws2h hws3 hC hrest]
  have e7 : skip_space (ws4 ++ ',' :: (ws5 ++ TOK ++ ws6)) = ',' :: (ws5 ++ TOK ++ ws6) :=
    skip_space_append hws4 (by simp [isspace])
  have e8 : scan_str (ws5 ++ TOK ++ ws6) = some (TOK, ws6) :=
    scan_str_token hws5 hT hTs (fun c hc => hws6 c (List.mem_of_mem_head? hc))
  simp only [e7, e8]

theorem scan_str_some {s tok rest : List Char} (h : scan_str s = some (tok, rest)) :
    tok ≠ [] ∧ ∀ c ∈ tok, isspace c = false := by
  unfold scan_str at h
  split at h
  · exact absurd h (by simp)
  · rename_i hne
    simp only [Option.some.injEq, Prod.mk.injEq] at h
    obtain ⟨h1, _⟩ := h
    subst h1
    refine ⟨fun h0 => hne h0, fun c hc => ?_⟩
    have := List.mem_takeWhile_imp hc
    simpa using this

/-- What every scan satisfies: the return value is one of -1, 0, 1, 2, 3; a
stored name is a non-empty run of scan-set characters; a stored third token
is non-empty and free of white space; a destination that is not stored
keeps its previous content. -/
theorem sscanf_level_facts (line str0 : List Char) (l0 : Int) (sl0 : List Char) :
    let r := sscanf_level line str0 l0 sl0
    (r.nscan = -1 ∨ r.nscan = 0 ∨ r.nscan = 1 ∨ r.nscan = 2 ∨ r.nscan = 3) ∧
    (1 ≤ r.nscan → r.str ≠ [] ∧ ∀ c ∈ r.str, c ≠ '=' ∧ c ≠ ' ') ∧
    (r.nscan = 3 → r.sl ≠ [] ∧ ∀ c ∈ r.sl, isspace c = false) ∧
    (r.nscan < 3 → r.sl = sl0) ∧ (r.nscan < 2 → r.l = l0) ∧ (r.nscan < 1 → r.str = str0) := by
  intro r
  have hname : ∀ str, List.takeWhile in_scanset (skip_space line) = str → str ≠ [] →
      str ≠ [] ∧ ∀ c ∈ str, c ≠ '=' ∧ c ≠ ' ' := by
    intro str hs hne
    refine ⟨hne, fun c hc => ?_⟩
    rw [← hs] at hc
    have := List.mem_takeWhile_imp hc
    simpa [in_scanset] using this
  show _ ∧ _
  simp only [r]
  unfold sscanf_level
  simp only []
  split
  · split <;> simp
  · rename_i str hne
    have hn := (hname _ rfl hne).1
    have hn2 : ∀ c ∈ List.takeWhile in_scanset (skip_space line), ¬c = '=' ∧ ¬c = ' ' :=
      (hname _ rfl hne).2
    split
    · split
      · simp [hn]; exact hn2
      · split
        · split
          · simp [hn]; exact hn2
          · rename_i sl x hsl
            have h3 := scan_str_some hsl
            simp [hn, h3.1]; exact ⟨hn2, h3.2⟩
        · simp [hn]; exact hn2
    · simp [hn]; exact hn2

theorem syslog_names_facts : ∀ p ∈ syslog_names,
    p.1 ≠ [] ∧ (∀ c ∈ p.1, isspace c = false ∧ c ≠ '\x00') ∧ syslog_level_atoi p.1 = p.2 ∧
      0 ≤ p.2 ∧ p.2 ≤ 7 := by
  decide

theorem int_wrap_of_int_range {v : Int} (h0 : -2147483648 ≤ v) (h1 : v ≤ 2147483647) :
    int_wrap v = v := by
  unfold int_wrap strtol_clamp
  split_ifs <;> omega

/-! ## C1: a complete, valid line -/

/-- C1 (as amended): for every line `ws NAME ws = ws CODE ws , ws SYSLOG_NAME ws`
where `NAME` is a non-empty run of characters other than `=`, space and NUL
that does not begin with a white-space character, is followed directly by a
space or by `=`, and has fewer than `B` characters, `CODE` is a decimal integer
(optional sign, digits) of value in [0,255] and `SYSLOG_NAME` is one of the
eight fixed names, `zlog_level_new` - when the value of `rc` tested at the exit label is
0 - returns a record whose `int_level` is the value of `CODE`, whose names
are `NAME` under `toupper` and `tolower`, whose `str_len` is the length of
`NAME` and whose `syslog_level` is the priority that `SYSLOG_NAME` names. -/
theorem zlog_level_new_valid_line (B : Nat) (u : locals_t)
    (ws1 NAME ws2 ws3 CODE ws4 ws5 SYS ws6 : List Char) (v prio : Int)
    (hws1 : ∀ c ∈ ws1, isspace c = true)
    (hN : NAME ≠ []) (hNset : ∀ c ∈ NAME, c ≠ '=' ∧ c ≠ ' ') (hN0 : ∀ c ∈ NAME, c ≠ '\x00')
    (hNh : ∀ c ∈ NAME.head?, isspace c = false) (hfit : NAME.length < B)
    (hws2 : ∀ c ∈ ws2, isspace c = true) (hws2h : ∀ c ∈ ws2.head?, c = ' ')
    (hws3 : ∀ c ∈ ws3, isspace c = true)
    (hC : dec_int_val CODE = some v) (hval : 0 ≤ v ∧ v ≤ 255)
    (hws4 : ∀ c ∈ ws4, isspace c = true) (hws5 : ∀ c ∈ ws5, isspace c = true)
    (hS : (SYS, prio) ∈ syslog_names)
    (hws6 : ∀ c ∈ ws6, isspace c = true)
    (hrc : u.rc = 0) :
    zlog_level_new B u
        (ws1 ++ NAME ++ ws2 ++ ['='] ++ ws3 ++ CODE ++ ws4 ++ [','] ++ ws5 ++ SYS ++ ws6) =
      some { int_level := v
             str_uppercase := NAME.map toupper
             str_lowercase := NAME.map tolower
             str_len := NAME.length
             syslog_level := prio } := by
  have hCn : ∀ c ∈ CODE, c ≠ '\x00' := (@scan_int_token CODE [] v hC (by simp)).2.2
  obtain ⟨hS1, hS2, hS3, _, _⟩ := syslog_names_facts _ hS
  simp only at hS1 hS2 hS3
  have hline : ws1 ++ NAME ++ ws2 ++ ['='] ++ ws3 ++ CODE ++ ws4 ++ [','] ++ ws5 ++ SYS ++ ws6 =
      ws1 ++ NAME ++ ws2 ++ '=' :: ws3 ++ CODE ++ (ws4 ++ ',' :: (ws5 ++ SYS ++ ws6)) := by
    simp
  have hnul : ∀ c ∈ ws1 ++ NAME ++ ws2 ++ '=' :: ws3 ++ CODE ++ (ws4 ++ ',' :: (ws5 ++ SYS ++ ws6)),
      c ≠ '\x00' := by
    intro c hc
    simp only [List.mem_append, List.mem_cons] at hc
    rcases hc with ((((h | h) | h) | h | h) | h) | h | h | (h | h) | h
    · exact ne_nul_of_isspace (hws1 c h)
    · exact hN0 c h
    · exact ne_nul_of_isspace (hws2 c h)
    · subst h; decide
    · exact ne_nul_of_isspace (hws3 c h)
    · exact hCn c h
    · exact ne_nul_of_isspace (hws4 c h)
    · subst h; decide
    · exact ne_nul_of_isspace (hws5 c h)
    · exact (hS2 c h).2
    · exact ne_nul_of_isspace (hws6 c h)
  have hscan := sscanf_level_full ws1 NAME ws2 ws3 CODE ws4 ws5 SYS ws6 u.str u.l u.sl v
    hws1 hN hNset hNh hws2 hws2h hws3 hC hws4 hws5 hS1 (fun c hc => (hS2 c hc).1) hws6
  have hw : int_wrap v = v := int_wrap_of_int_range (by omega) (by omega)
  rw [hline, zlog_level_new_eq, cstr_eq_self hnul, hscan, hw]
  have hlen : ¬ (B - 1 < NAME.length) := by omega
  have h187 : ¬ (prio = -187) := by
    have := syslog_names_facts _ hS
    omega
  simp [level_of_scan, hN, hS1, hS3, hlen, hrc, h187]
  omega

/-- Witness for C1: the line `DEBUG = 20, LOG_DEBUG` with a 1025-byte buffer. -/
theorem zlog_level_new_valid_line_witness :
    zlog_level_new 1025 ⟨0, [], 0, []⟩ "DEBUG = 20, LOG_DEBUG".toList =
      some ⟨20, "DEBUG".toList, "debug".toList, 5, LOG_DEBUG⟩ :=
  zlog_level_new_valid_line 1025 ⟨0, [], 0, []⟩ [] "DEBUG".toList [' '] [' '] "20".toList []
    [' '] "LOG_DEBUG".toList [] 20 LOG_DEBUG (by decide) (by decide) (by decide) (by decide)
    (by decide) (by decide) (by decide) (by decide) (by decide) (by decide) (by decide)
    (by decide) (by decide) (by decide) (by decide) rfl

/-- C1 (as stated) fails: `"\tA"` is a non-empty run of characters other than
`=` and space, yet for the line `"\tA = 5, LOG_ERR"` the record holds the
one-character name `A`, the leading white-space directive of the format
having skipped the tab; and on `"A\t= 5, LOG_ERR"`, where a tab is the white
space after the name `A`, the record holds the two-character name `"A\t"`. -/
theorem zlog_level_new_name_whitespace_counterexample :
    ((['\t', 'A'] ≠ [] ∧ ∀ c ∈ ['\t', 'A'], c ≠ '=' ∧ c ≠ ' ') ∧
      zlog_level_new 1025 ⟨0, [], 0, []⟩ (['\t', 'A'] ++ " = 5, LOG_ERR".toList) =
        some ⟨5, ['A'], ['a'], 1, LOG_ERR⟩ ∧
      zlog_level_new 1025 ⟨0, [], 0, []⟩ (['\t', 'A'] ++ " = 5, LOG_ERR".toList) ≠
        some ⟨5, ['\t', 'A'].map toupper, ['\t', 'A'].map tolower, ['\t', 'A'].length,
          LOG_ERR⟩) ∧
    (zlog_level_new 1025 ⟨0, [], 0, []⟩ (['A'] ++ ['\t'] ++ "= 5, LOG_ERR".toList) =
        some ⟨5, ['A', '\t'], ['a', '\t'], 2, LOG_ERR⟩ ∧
      zlog_level_new 1025 ⟨0, [], 0, []⟩ (['A'] ++ ['\t'] ++ "= 5, LOG_ERR".toList) ≠
        some ⟨5, ['A'].map toupper, ['A'].map tolower, ['A'].length, LOG_ERR⟩) := by
  decide

/-! ## C2: the range check on the code -/

/-- The range check on the stored code: for every line from which the scan
extracts `NAME` and `CODE` (at least two conversions), if the `int` `l` that
`%d` stored is negative or greater than 255 then `zlog_level_new` returns
`NULL`; and if `l` is 0 or 255 the range check does not reject the line: the
result is the one the remaining checks (empty name, syslog name, name
length, exit test) give. -/
theorem zlog_level_new_code_range (B : Nat) (u : locals_t) (line : List Char)
    (h2 : 2 ≤ (sscanf_level (cstr line) u.str u.l u.sl).nscan) :
    (((sscanf_level (cstr line) u.str u.l u.sl).l < 0 ∨
        255 < (sscanf_level (cstr line) u.str u.l u.sl).l) →
      zlog_level_new B u line = none) ∧
    (((sscanf_level (cstr line) u.str u.l u.sl).l = 0 ∨
        (sscanf_level (cstr line) u.str u.l u.sl).l = 255) →
      zlog_level_new B u line =
        (let r := sscanf_level (cstr line) u.str u.l u.sl
         if r.str = [] then none
         else if r.sl ≠ [] ∧ syslog_level_atoi r.sl = -187 then none
         else if B - 1 < r.str.length then none
         else if u.rc ≠ 0 then none
         else some (level_of_scan r))) := by
  rw [zlog_level_new_eq]
  generalize sscanf_level (cstr line) u.str u.l u.sl = r at h2 ⊢
  have h1 : ¬ r.nscan < 2 := by omega
  constructor
  · intro hl
    have hl2 : r.l < 0 ∨ r.l > 255 := by omega
    simp only [h1, hl2, if_false, if_true]
  · intro hl
    have hl2 : ¬ (r.l < 0 ∨ r.l > 255) := by omega
    simp only [h1, hl2, if_false]

theorem cstr_append_of_ne_nul {xs rest : List Char} (h : ∀ c ∈ xs, c ≠ '\x00') :
    cstr (xs ++ rest) = xs ++ cstr rest := by
  unfold cstr
  induction xs with
  | nil => rfl
  | cons x xs ih =>
    have hx : x ≠ '\x00' := h x (by simp)
    have h2 := ih (fun c hc => h c (by simp [hc]))
    simp [List.takeWhile_cons, hx, h2]

theorem cstr_head_of_head {rest : List Char} {p : Char → Bool}
    (h : ∀ c ∈ rest.head?, p c = false) : ∀ c ∈ (cstr rest).head?, p c = false := by
  intro c hc
  cases rest with
  | nil => simp [cstr] at hc
  | cons x xs =>
    by_cases hx : x = '\x00'
    · simp [cstr, List.takeWhile_cons, hx] at hc
    · simp [cstr, List.takeWhile_cons, hx] at hc
      subst hc
      exact h x (by simp)

/-- C2 (code at the failing inputs): for every line
`ws NAME ws = ws CODE rest` whose `CODE` is a decimal integer of value `v`,
`zlog_level_new` returns `NULL` when the `int` that `%d` stores for `v` is
negative or greater than 255; that `int` is `v` itself when `v` fits an
`int`, so every such `CODE` outside [0,255] is rejected. But the `CODE`
4294967301 is stored as 5 and the `CODE` -9223372036854775809 as 0, and the
lines `A = 4294967301, LOG_ERR` and `A = -9223372036854775809, LOG_ERR` give
records with `int_level` 5 and 0. The lines with `CODE` 256 and -1 give
`NULL`, those with `CODE` 0 and 255 give records. -/
theorem zlog_level_new_code_token (B : Nat) (u : locals_t) :
    (∀ (ws1 NAME ws2 ws3 CODE rest : List Char) (v : Int),
      (∀ c ∈ ws1, isspace c = true) → NAME ≠ [] →
      (∀ c ∈ NAME, c ≠ '=' ∧ c ≠ ' ') → (∀ c ∈ NAME, c ≠ '\x00') →
      (∀ c ∈ NAME.head?, isspace c = false) →
      (∀ c ∈ ws2, isspace c = true) → (∀ c ∈ ws2.head?, c = ' ') →
      (∀ c ∈ ws3, isspace c = true) →
      dec_int_val CODE = some v → (∀ c ∈ rest.head?, isdigit c = false) →
      (int_wrap v < 0 ∨ 255 < int_wrap v) →
      zlog_level_new B u (ws1 ++ NAME ++ ws2 ++ ['='] ++ ws3 ++ CODE ++ rest) = none) ∧
    (∀ v : Int, -2147483648 ≤ v → v ≤ 2147483647 → int_wrap v = v) ∧
    (dec_int_val "4294967301".toList = some 4294967301 ∧
      int_wrap 4294967301 = 5 ∧
      zlog_level_new 1025 ⟨0, [], 0, []⟩ "A = 4294967301, LOG_ERR".toList =
        some ⟨5, ['A'], ['a'], 1, LOG_ERR⟩) ∧
    (dec_int_val "-9223372036854775809".toList = some (-9223372036854775809) ∧
      int_wrap (-9223372036854775809) = 0 ∧
      zlog_level_new 1025 ⟨0, [], 0, []⟩ "A = -9223372036854775809, LOG_ERR".toList =
        some ⟨0, ['A'], ['a'], 1, LOG_ERR⟩) ∧
    zlog_level_new 1025 ⟨0, [], 0, []⟩ "A = 256, LOG_ERR".toList = none ∧
    zlog_level_new 1025 ⟨0, [], 0, []⟩ "A = -1, LOG_ERR".toList = none ∧
    zlog_level_new 1025 ⟨0, [], 0, []⟩ "A = 0, LOG_ERR".toList =
      some ⟨0, ['A'], ['a'], 1, LOG_ERR⟩ ∧
    zlog_level_new 1025 ⟨0, [], 0, []⟩ "A = 255, LOG_ERR".toList =
      some ⟨255, ['A'], ['a'], 1, LOG_ERR⟩ := by
  refine ⟨?_, fun v h0 h1 => int_wrap_of_int_range h0 h1, by decide, by decide, by decide,
    by decide, by decide, by decide⟩
  intro ws1 NAME ws2 ws3 CODE rest v hws1 hN hNset hN0 hNh hws2 hws2h hws3 hC hrest hv
  have hCn : ∀ c ∈ CODE, c ≠ '\x00' := (@scan_int_token CODE [] v hC (by simp)).2.2
  have hline : ws1 ++ NAME ++ ws2 ++ ['='] ++ ws3 ++ CODE ++ rest =
      (ws1 ++ NAME ++ ws2 ++ '=' :: ws3 ++ CODE) ++ rest := by simp
  have hnul : ∀ c ∈ ws1 ++ NAME ++ ws2 ++ '=' :: ws3 ++ CODE, c ≠ '\x00' := by
    intro c hc
    simp only [List.mem_append, List.mem_cons] at hc
    rcases hc with (((h | h) | h) | h | h) | h
    · exact ne_nul_of_isspace (hws1 c h)
    · exact hN0 c h
    · exact ne_nul_of_isspace (hws2 c h)
    · subst h; decide
    · exact ne_nul_of_isspace (hws3 c h)
    · exact hCn c h
  have hscan := sscanf_level_upto_code ws1 NAME ws2 ws3 CODE (cstr rest) u.str u.l u.sl v
    hws1 hN hNset hNh hws2 hws2h hws3 hC (cstr_head_of_head hrest)
  have hr : 2 ≤ (sscanf_level (ws1 ++ NAME ++ ws2 ++ '=' :: ws3 ++ CODE ++ cstr rest)
        u.str u.l u.sl).nscan ∧
      (sscanf_level (ws1 ++ NAME ++ ws2 ++ '=' :: ws3 ++ CODE ++ cstr rest)
        u.str u.l u.sl).l = int_wrap v := by
    rw [hscan]
    split
    · split <;> simp
    · simp
  rw [hline, zlog_level_new_eq, cstr_append_of_ne_nul hnul]
  simp only []
  have h1 : ¬ (sscanf_level (ws1 ++ NAME ++ ws2 ++ '=' :: ws3 ++ CODE ++ cstr rest)
      u.str u.l u.sl).nscan < 2 := by omega
  have h2 : (sscanf_level (ws1 ++ NAME ++ ws2 ++ '=' :: ws3 ++ CODE ++ cstr rest)
      u.str u.l u.sl).l < 0 ∨ (sscanf_level (ws1 ++ NAME ++ ws2 ++ '=' :: ws3 ++ CODE ++
      cstr rest) u.str u.l u.sl).l > 255 := by
    rw [hr.2]; omega
  rw [if_neg h1, if_pos h2]

/-! ## C3: a line without syslog part -/

/-- A line `ws NAME ws = ws CODE ws` without comma stores two conversions and
leaves `sl` as it was; when `sl` happened to start with NUL and `rc` to hold
0, `zlog_level_new` returns the record with priority `LOG_DEBUG`. -/
theorem zlog_level_new_no_syslog_part (B : Nat) (u : locals_t)
    (ws1 NAME ws2 ws3 CODE ws4 : List Char) (v : Int)
    (hws1 : ∀ c ∈ ws1, isspace c = true)
    (hN : NAME ≠ []) (hNset : ∀ c ∈ NAME, c ≠ '=' ∧ c ≠ ' ') (hN0 : ∀ c ∈ NAME, c ≠ '\x00')
    (hNh : ∀ c ∈ NAME.head?, isspace c = false) (hfit : NAME.length < B)
    (hws2 : ∀ c ∈ ws2, isspace c = true) (hws2h : ∀ c ∈ ws2.head?, c = ' ')
    (hws3 : ∀ c ∈ ws3, isspace c = true)
    (hC : dec_int_val CODE = some v) (hval : 0 ≤ v ∧ v ≤ 255)
    (hws4 : ∀ c ∈ ws4, isspace c = true)
    (hsl : u.sl = []) (hrc : u.rc = 0) :
    zlog_level_new B u (ws1 ++ NAME ++ ws2 ++ ['='] ++ ws3 ++ CODE ++ ws4) =
      some { int_level := v
             str_uppercase := NAME.map toupper
             str_lowercase := NAME.map tolower
             str_len := NAME.length
             syslog_level := LOG_DEBUG } := by
  have hCn : ∀ c ∈ CODE, c ≠ '\x00' := (@scan_int_token CODE [] v hC (by simp)).2.2
  have hline : ws1 ++ NAME ++ ws2 ++ ['='] ++ ws3 ++ CODE ++ ws4 =
      ws1 ++ NAME ++ ws2 ++ '=' :: ws3 ++ CODE ++ ws4 := by simp
  have hnul : ∀ c ∈ ws1 ++ NAME ++ ws2 ++ '=' :: ws3 ++ CODE ++ ws4, c ≠ '\x00' := by
    intro c hc
    simp only [List.mem_append, List.mem_cons] at hc
    rcases hc with ((((h | h) | h) | h | h) | h) | h
    · exact ne_nul_of_isspace (hws1 c h)
    · exact hN0 c h
    · exact ne_nul_of_isspace (hws2 c h)
    · subst h; decide
    · exact ne_nul_of_isspace (hws3 c h)
    · exact hCn c h
    · exact ne_nul_of_isspace (hws4 c h)
  have hrest : ∀ c ∈ ws4.head?, isdigit c = false := by
    intro c hc
    have hw : isspace c = true := hws4 c (List.mem_of_mem_head? hc)
    cases hd : isdigit c with
    | false => rfl
    | true => rw [isspace_of_isdigit hd] at hw; exact absurd hw (by simp)
  have hskip : skip_space ws4 = [] := by
    have := @skip_space_append ws4 [] hws4 (by simp)
    simpa using this
  have hscan := sscanf_level_upto_code ws1 NAME ws2 ws3 CODE ws4 u.str u.l u.sl v
    hws1 hN hNset hNh hws2 hws2h hws3 hC hrest
  rw [hskip] at hscan
  have hw : int_wrap v = v := int_wrap_of_int_range (by omega) (by omega)
  rw [hline, zlog_level_new_eq, cstr_eq_self hnul, hscan, hw]
  have hlen : ¬ (B - 1 < NAME.length) := by omega
  simp [level_of_scan, hN, hsl, hlen, hrc]
  omega

/-- C3 (code at the failing input): on the line `DEBUG = 20` the scan leaves
`sl` untouched, and `zlog_level_new` then reads it: with `x` left in `sl` it
returns `NULL`, with `LOG_ERR` left in `sl` it returns a record of priority
`LOG_ERR`, and with a non-zero value left in `rc` it returns `NULL`; only
when `sl` starts with NUL and `rc` is 0 does it return the `LOG_DEBUG`
record. -/
theorem zlog_level_new_no_syslog_part_uninitialised :
    zlog_level_new 1025 ⟨0, [], 0, ['x']⟩ "DEBUG = 20".toList = none ∧
    zlog_level_new 1025 ⟨0, [], 0, "LOG_ERR".toList⟩ "DEBUG = 20".toList =
      some ⟨20, "DEBUG".toList, "debug".toList, 5, LOG_ERR⟩ ∧
    zlog_level_new 1025 ⟨1, [], 0, []⟩ "DEBUG = 20".toList = none ∧
    zlog_level_new 1025 ⟨0, [], 0, []⟩ "DEBUG = 20".toList =
      some ⟨20, "DEBUG".toList, "debug".toList, 5, LOG_DEBUG⟩ := by
  decide

/-! ## C4: an unknown syslog name -/

/-- C4: for every line from which the scan extracts all three tokens, if the
third token equals none of the eight syslog names ignoring case, then
`zlog_level_new` returns `NULL`. -/
theorem zlog_level_new_unknown_syslog_name (B : Nat) (u : locals_t) (line : List Char)
    (h3 : (sscanf_level (cstr line) u.str u.l u.sl).nscan = 3)
    (hX : ∀ p ∈ syslog_names,
      STRICMP_eq (sscanf_level (cstr line) u.str u.l u.sl).sl p.1 = false) :
    zlog_level_new B u line = none := by
  have hf := (sscanf_level_facts (cstr line) u.str u.l u.sl).2.2.1 h3
  rw [zlog_level_new_eq]
  generalize sscanf_level (cstr line) u.str u.l u.sl = r at h3 hX hf ⊢
  have hatoi : syslog_level_atoi r.sl = -187 := by
    unfold syslog_level_atoi
    simp only [syslog_names, List.mem_cons, List.mem_singleton, forall_eq_or_imp,
      forall_eq, List.not_mem_nil, false_implies, implies_true, and_true] at hX
    obtain ⟨a1, a2, a3, a4, a5, a6, a7, a8⟩ := hX
    simp only [a1, a2, a3, a4, a5, a6, a7, a8, Bool.false_eq_true, if_false]
  simp only []
  split_ifs <;> first | rfl | (exfalso; simp_all)

/-- Witness for C4: the line `DEBUG = 20, LOG_BOGUS`. -/
theorem zlog_level_new_unknown_syslog_name_witness :
    zlog_level_new 1025 ⟨0, [], 0, []⟩ "DEBUG = 20, LOG_BOGUS".toList = none :=
  zlog_level_new_unknown_syslog_name 1025 ⟨0, [], 0, []⟩ "DEBUG = 20, LOG_BOGUS".toList
    (by decide) (by decide)

/-! ## C5: malformed lines -/

theorem first_occurrence_unique {c : Char} :
    ∀ {pre pre2 post post2 : List Char}, pre ++ c :: post = pre2 ++ c :: post2 →
      c ∉ pre → c ∉ pre2 → post = post2
  | [], [], _, _, h, _, _ => by simpa using h
  | [], x :: xs, _, _, h, _, h2 => by
    simp only [List.nil_append, List.cons_append, List.cons.injEq] at h
    exact absurd h.1 (fun e => h2 (by simp [e]))
  | x :: xs, [], _, _, h, h1, _ => by
    simp only [List.nil_append, List.cons_append, List.cons.injEq] at h
    exact absurd h.1 (fun e => h1 (by simp [e]))
  | x :: xs, y :: ys, _, _, h, h1, h2 => by
    simp only [List.cons_append, List.cons.injEq] at h
    exact first_occurrence_unique h.2 (fun e => h1 (by simp [e])) (fun e => h2 (by simp [e]))

/-- A scan that stores two conversions has matched the first `=` of the
line and converted an integer right after it (white space apart). -/
theorem sscanf_level_two (line str0 : List Char) (l0 : Int) (sl0 : List Char)
    (h2 : 2 ≤ (sscanf_level line str0 l0 sl0).nscan) :
    ∃ pre s1 l s2, line = pre ++ '=' :: s1 ∧ '=' ∉ pre ∧
      scan_int (skip_space s1) = some (l, s2) ∧ (sscanf_level line str0 l0 sl0).l = l := by
  unfold sscanf_level at h2 ⊢
  simp only [] at h2 ⊢
  split at h2
  · split at h2 <;> simp at h2
  · split at h2
    · rename_i s1 heq
      split at h2
      · simp at h2
      · rename_i l s2 hint
        refine ⟨line.takeWhile isspace ++ ((skip_space line).takeWhile in_scanset ++
          ((skip_space line).dropWhile in_scanset).takeWhile isspace), s1, l, s2, ?_, ?_, hint, ?_⟩
        · have e1 := List.takeWhile_append_dropWhile isspace line
          have e2 := List.takeWhile_append_dropWhile in_scanset (skip_space line)
          have e3 := List.takeWhile_append_dropWhile isspace
            ((skip_space line).dropWhile in_scanset)
          unfold skip_space at heq e2 e3 ⊢
          rw [heq] at e3
          rw [List.append_assoc, List.append_assoc, e3, e2, e1]
        · intro hmem
          simp only [List.mem_append] at hmem
          rcases hmem with h | h | h
          · exact absurd (List.mem_takeWhile_imp h) (by decide)
          · exact absurd (List.mem_takeWhile_imp h) (by decide)
          · exact absurd (List.mem_takeWhile_imp h) (by decide)
        · split
          · split <;> rfl
          · rfl
    · simp at h2

/-- C5: `zlog_level_new` returns `NULL` for every line from which the scan
extracts fewer than two tokens; in particular for the empty or all-blank
line, for a line without any `=`, for a line whose first non-blank character
is `=`, and for a line in which what follows its first `=` (white space
apart) is not a decimal integer. -/
theorem zlog_level_new_malformed (B : Nat) (u : locals_t) (line : List Char) :
    ((sscanf_level (cstr line) u.str u.l u.sl).nscan < 2 → zlog_level_new B u line = none) ∧
    ((∀ c ∈ cstr line, isspace c = true) → zlog_level_new B u line = none) ∧
    ('=' ∉ cstr line → zlog_level_new B u line = none) ∧
    ((skip_space (cstr line)).head? = some '=' → zlog_level_new B u line = none) ∧
    (∀ pre post, cstr line = pre ++ '=' :: post → '=' ∉ pre →
      scan_int (skip_space post) = none → zlog_level_new B u line = none) := by
  have h0 : (sscanf_level (cstr line) u.str u.l u.sl).nscan < 2 →
      zlog_level_new B u line = none := by
    intro h
    unfold zlog_level_new
    simp only [h, if_true]
  have hno : '=' ∉ cstr line → zlog_level_new B u line = none := by
    intro hne
    apply h0
    by_contra hc
    have h2 : 2 ≤ (sscanf_level (cstr line) u.str u.l u.sl).nscan := by omega
    obtain ⟨pre, s1, l, s2, hl, _⟩ := sscanf_level_two _ u.str u.l u.sl h2
    exact hne (by rw [hl]; simp)
  refine ⟨h0, ?_, hno, ?_, ?_⟩
  · intro hall
    apply hno
    intro hmem
    exact absurd (hall _ hmem) (by decide)
  · intro hhead
    apply h0
    obtain ⟨rest, hrest⟩ : ∃ rest, skip_space (cstr line) = '=' :: rest := by
      cases hs : skip_space (cstr line) with
      | nil => rw [hs] at hhead; simp at hhead
      | cons c cs => rw [hs] at hhead; simp at hhead; exact ⟨cs, by rw [hhead]⟩
    unfold sscanf_level
    simp [hrest, in_scanset]
  · intro pre post hl hpre hint
    apply h0
    by_contra hc
    have h2 : 2 ≤ (sscanf_level (cstr line) u.str u.l u.sl).nscan := by omega
    obtain ⟨pre2, s1, l, s2, hl2, hpre2, hint2, _⟩ := sscanf_level_two _ u.str u.l u.sl h2
    have := first_occurrence_unique (hl.symm.trans hl2) hpre hpre2
    subst this
    rw [hint] at hint2
    exact absurd hint2 (by simp)

/-- Witness for C5: the empty line, a blank line, `DEBUG 20`, `= 20` and
`DEBUG = abc` all give `NULL`. -/
theorem zlog_level_new_malformed_witness :
    zlog_level_new 1025 ⟨0, [], 0, []⟩ [] = none ∧
    zlog_level_new 1025 ⟨0, [], 0, []⟩ " \t ".toList = none ∧
    zlog_level_new 1025 ⟨0, [], 0, []⟩ "DEBUG 20".toList = none ∧
    zlog_level_new 1025 ⟨0, [], 0, []⟩ "= 20".toList = none ∧
    zlog_level_new 1025 ⟨0, [], 0, []⟩ "DEBUG = abc".toList = none :=
  ⟨(zlog_level_new_malformed 1025 ⟨0, [], 0, []⟩ []).1 (by decide),
   (zlog_level_new_malformed 1025 ⟨0, [], 0, []⟩ " \t ".toList).2.1 (by decide),
   (zlog_level_new_malformed 1025 ⟨0, [], 0, []⟩ "DEBUG 20".toList).2.2.1 (by decide),
   (zlog_level_new_malformed 1025 ⟨0, [], 0, []⟩ "= 20".toList).2.2.2.1 (by decide),
   (zlog_level_new_malformed 1025 ⟨0, [], 0, []⟩ "DEBUG = abc".toList).2.2.2.2
     "DEBUG ".toList " abc".toList (by decide) (by decide) (by decide)⟩

/-! ## C6: the bound on the name -/

/-- C6 (code at the failing input): with `B` the size of the name buffers,
`zlog_level_new` returns `NULL` for every line whose scanned name has `B`
characters or more, and a record it returns holds the whole scanned name
(never a truncation), its length below `B`; for every name of at most
`B - 1` characters the copy loop stores the whole name in both cases and
stops at the terminator of `str`, at an index inside the buffer. Whether the
line is then accepted is left to the exit test on `rc`, which nothing has
assigned: with a 4-byte buffer the line `ABC = 7, LOG_ERR`, whose name has
exactly `B - 1` characters, gives `NULL` when 1 is left in `rc` and the full
record when 0 is; `ABCD = 7, LOG_ERR` gives `NULL` either way. -/
theorem zlog_level_new_name_bound (B : Nat) (u : locals_t) (line : List Char) :
    (B ≤ (sscanf_level (cstr line) u.str u.l u.sl).str.length →
      zlog_level_new B u line = none) ∧
    (∀ a, zlog_level_new B u line = some a →
      a.str_uppercase = (sscanf_level (cstr line) u.str u.l u.sl).str.map toupper ∧
      a.str_lowercase = (sscanf_level (cstr line) u.str u.l u.sl).str.map tolower ∧
      a.str_len = (sscanf_level (cstr line) u.str u.l u.sl).str.length ∧
      a.str_len < B) ∧
    (∀ name : List Char, name.length ≤ B - 1 →
      copy_loop (B - 1) name 0 [] [] =
        (name.length, name.map toupper, name.map tolower, []) ∧
      (name ≠ [] → name.length < B)) ∧
    ((sscanf_level (cstr line) u.str u.l u.sl).str.length ≤ B - 1 →
      2 ≤ (sscanf_level (cstr line) u.str u.l u.sl).nscan →
      0 ≤ (sscanf_level (cstr line) u.str u.l u.sl).l →
      (sscanf_level (cstr line) u.str u.l u.sl).l ≤ 255 →
      ((sscanf_level (cstr line) u.str u.l u.sl).sl = [] ∨
        syslog_level_atoi (sscanf_level (cstr line) u.str u.l u.sl).sl ≠ -187) →
      zlog_level_new B u line =
        zlog_level_new_exit u.rc
          (level_of_scan (sscanf_level (cstr line) u.str u.l u.sl))) ∧
    zlog_level_new 4 ⟨1, [], 0, []⟩ "ABC = 7, LOG_ERR".toList = none ∧
    zlog_level_new 4 ⟨0, [], 0, []⟩ "ABC = 7, LOG_ERR".toList =
      some ⟨7, ['A', 'B', 'C'], ['a', 'b', 'c'], 3, LOG_ERR⟩ ∧
    zlog_level_new 4 ⟨1, [], 0, []⟩ "ABCD = 7, LOG_ERR".toList = none ∧
    zlog_level_new 4 ⟨0, [], 0, []⟩ "ABCD = 7, LOG_ERR".toList = none := by
  have hf := (sscanf_level_facts (cstr line) u.str u.l u.sl).2.1
  rw [zlog_level_new_eq]
  generalize sscanf_level (cstr line) u.str u.l u.sl = r at hf ⊢
  simp only [] at hf ⊢
  refine ⟨?_, ?_, ?_, ?_, by decide, by decide, by decide, by decide⟩
  · intro hB
    split_ifs with h1 h2 h3 h4 h5 h6 <;> try rfl
    exfalso
    have hl : 0 < r.str.length := List.length_pos.mpr h3
    omega
  · intro a ha
    split_ifs at ha with h1 h2 h3 h4 h5 h6
    simp only [Option.some.injEq] at ha
    subst ha
    have hl : 0 < r.str.length := List.length_pos.mpr h3
    refine ⟨rfl, rfl, rfl, ?_⟩
    simp only [level_of_scan]
    omega
  · intro name hn
    refine ⟨?_, fun hne => ?_⟩
    · rw [copy_loop_zero, List.take_of_length_le hn, List.drop_of_length_le hn,
        Nat.min_eq_right hn]
    · have hl : 0 < name.length := List.length_pos.mpr hne
      omega
  · intro hlen h2 hl0 hl1 hsl
    have h1 : ¬ r.nscan < 2 := by omega
    have h2b : ¬ (r.l < 0 ∨ r.l > 255) := by omega
    have h3 : ¬ r.str = [] := (hf (by omega)).1
    have h4 : ¬ (r.sl ≠ [] ∧ syslog_level_atoi r.sl = -187) := by
      rintro ⟨a, b⟩
      rcases hsl with h | h
      · exact a h
      · exact h b
    have h5 : ¬ (B - 1 < r.str.length) := by omega
    rw [if_neg h1, if_neg h2b, if_neg h3, if_neg h4, if_neg h5]
    rfl

/-! ## C7: the record invariant -/

theorem syslog_level_atoi_range (str : List Char) :
    syslog_level_atoi str = -187 ∨ (0 ≤ syslog_level_atoi str ∧ syslog_level_atoi str ≤ 7) := by
  unfold syslog_level_atoi
  split_ifs <;> simp [LOG_EMERG, LOG_ALERT, LOG_CRIT, LOG_ERR, LOG_WARNING, LOG_NOTICE,
    LOG_INFO, LOG_DEBUG]

/-- C7: every record `zlog_level_new` returns, for any line, any buffer size
and any initial content of the uninitialised locals, has `int_level` in
[0,255], non-empty `str_uppercase` and `str_lowercase` of one length, that
length in `str_len`, both the case-folds (`toupper`, `tolower`, character by
character) of one non-empty source name, and a `syslog_level` among the
eight priorities `LOG_EMERG` (0) to `LOG_DEBUG` (7). -/
theorem zlog_level_new_record_invariant (B : Nat) (u : locals_t) (line : List Char)
    (a : zlog_level_t) (h : zlog_level_new B u line = some a) :
    (0 ≤ a.int_level ∧ a.int_level ≤ 255) ∧
    a.str_uppercase ≠ [] ∧ a.str_lowercase ≠ [] ∧
    a.str_uppercase.length = a.str_lowercase.length ∧
    a.str_uppercase.length = a.str_len ∧
    (∃ name : List Char, name ≠ [] ∧ a.str_uppercase = name.map toupper ∧
      a.str_lowercase = name.map tolower) ∧
    a.syslog_level ∈ [LOG_EMERG, LOG_ALERT, LOG_CRIT, LOG_ERR, LOG_WARNING, LOG_NOTICE,
      LOG_INFO, LOG_DEBUG] := by
  rw [zlog_level_new_eq] at h
  generalize sscanf_level (cstr line) u.str u.l u.sl = r at h
  simp only [] at h
  split_ifs at h with h1 h2 h3 h4 h5 h6
  simp only [Option.some.injEq] at h
  subst h
  refine ⟨by simp only [level_of_scan]; omega, by simpa [level_of_scan] using h3,
    by simpa [level_of_scan] using h3, by simp [level_of_scan], by simp [level_of_scan],
    ⟨r.str, h3, rfl, rfl⟩, ?_⟩
  simp only [level_of_scan]
  by_cases hsl : r.sl = []
  · simp [hsl]
  · rw [if_neg hsl]
    have hr := syslog_level_atoi_range r.sl
    have hne : syslog_level_atoi r.sl ≠ -187 := fun e => h4 ⟨hsl, e⟩
    simp only [LOG_EMERG, LOG_ALERT, LOG_CRIT, LOG_ERR, LOG_WARNING, LOG_NOTICE,
      LOG_INFO, LOG_DEBUG, List.mem_cons, List.mem_singleton, List.not_mem_nil, or_false]
    omega

/-- Witness for C7: the record of the line `WARN = 80, LOG_WARNING`. -/
theorem zlog_level_new_record_invariant_witness :
    (0 ≤ (80 : Int) ∧ (80 : Int) ≤ 255) ∧
    "WARN".toList ≠ [] ∧ "warn".toList ≠ [] ∧
    "WARN".toList.length = "warn".toList.length ∧
    "WARN".toList.length = 4 ∧
    (∃ name : List Char, name ≠ [] ∧ "WARN".toList = name.map toupper ∧
      "warn".toList = name.map tolower) ∧
    LOG_WARNING ∈ [LOG_EMERG, LOG_ALERT, LOG_CRIT, LOG_ERR, LOG_WARNING, LOG_NOTICE,
      LOG_INFO, LOG_DEBUG] :=
  zlog_level_new_record_invariant 1025 ⟨0, [], 0, []⟩ "WARN = 80, LOG_WARNING".toList
    ⟨80, "WARN".toList, "warn".toList, 4, LOG_WARNING⟩ (by decide)

/-! ## C8: name lookup -/

theorem upper_cases {c : Char} (h : 'A' ≤ c ∧ c ≤ 'Z') :
    ∃ n, 65 ≤ n ∧ n ≤ 90 ∧ c = Char.ofNat n := by
  refine ⟨c.toNat, ?_, ?_, (Char.ofNat_toNat c).symm⟩
  · have := h.1
    rw [Char.le_def, UInt32.le_def] at this
    exact this
  · have := h.2
    rw [Char.le_def, UInt32.le_def] at this
    exact this

theorem tolower_ne_nul {c : Char} (h : c ≠ '\x00') : tolower c ≠ '\x00' := by
  unfold tolower
  split_ifs with h1
  · obtain ⟨n, h65, h90, rfl⟩ := upper_cases h1
    interval_cases n <;> decide
  · exact h

theorem cstr_map_tolower (s : List Char) : (cstr s).map tolower = cstr (s.map tolower) := by
  unfold cstr
  induction s with
  | nil => rfl
  | cons c cs ih =>
    by_cases hc : c = '\x00'
    · subst hc
      simp [List.takeWhile_cons, tolower]
    · have h2 := tolower_ne_nul hc
      simp [List.takeWhile_cons, hc, h2, ih]

theorem zlog_level_atoi_loop_spec (str : List Char) :
    ∀ (slots : List (Option zlog_level_t)) (i0 : Nat),
      ((∀ a ∈ slots, slot_matches str a = false) ∧ zlog_level_atoi_loop str slots i0 = -1) ∨
      (∃ (k : Nat) (a : Option zlog_level_t), slots[k]? = some a ∧ slot_matches str a = true ∧
        (∀ (j : Nat) (b : Option zlog_level_t), j < k → slots[j]? = some b →
          slot_matches str b = false) ∧
        zlog_level_atoi_loop str slots i0 = ((i0 + k : Nat) : Int))
  | [], i0 => by left; simp [zlog_level_atoi_loop]
  | x :: xs, i0 => by
    by_cases hx : slot_matches str x = true
    · right
      refine ⟨0, x, by simp, hx, fun j b hj => absurd hj (by omega), ?_⟩
      simp [zlog_level_atoi_loop, hx]
    · have hx2 : slot_matches str x = false := by simpa using hx
      rcases zlog_level_atoi_loop_spec str xs (i0 + 1) with ⟨hall, hr⟩ | ⟨k, a, hk, ha, hlt, hr⟩
      · left
        refine ⟨?_, ?_⟩
        · intro a ha
          rcases List.mem_cons.mp ha with rfl | h
          · exact hx2
          · exact hall a h
        · simp [zlog_level_atoi_loop, hx2, hr]
      · right
        refine ⟨k + 1, a, by simpa using hk, ha, ?_, ?_⟩
        · intro j b hj hb
          cases j with
          | zero => simp at hb; subst hb; exact hx2
          | succ j => exact hlt j b (by omega) (by simpa using hb)
        · simp only [zlog_level_atoi_loop, hx2, hr]
          simp
          omega

set_option maxRecDepth 100000 in
theorem default_levels_atoi_debug :
    zlog_level_atoi default_levels (some "debug".toList) = 20 := by
  decide

set_option maxRecDepth 100000 in
theorem default_levels_atoi_nope :
    zlog_level_atoi default_levels (some "nope".toList) = -1 := by
  decide

/-- C8: `zlog_level_atoi` returns -1 for the `NULL` and for the empty string;
for any other string it returns the smallest index whose slot is populated
with a name equal to the string ignoring case, and -1 exactly when no slot
is; strings that differ only in the case of letters get the same result; on
the default registry every casing of `debug` gives 20 and `nope` gives -1. -/
theorem zlog_level_atoi_first_match (levels : zc_arraylist_t) :
    zlog_level_atoi levels none = -1 ∧
    (∀ s, cstr s = [] → zlog_level_atoi levels (some s) = -1) ∧
    (∀ s, cstr s ≠ [] →
      ((∀ a ∈ levels, slot_matches (cstr s) a = false) ∧
        zlog_level_atoi levels (some s) = -1) ∨
      (∃ (i : Nat) (a : Option zlog_level_t), levels[i]? = some a ∧
        slot_matches (cstr s) a = true ∧
        (∀ (j : Nat) (b : Option zlog_level_t), j < i → levels[j]? = some b →
          slot_matches (cstr s) b = false) ∧
        zlog_level_atoi levels (some s) = (i : Int) ∧
        zlog_level_atoi levels (some s) ≠ -1)) ∧
    (∀ s s2, s.map tolower = s2.map tolower →
      zlog_level_atoi levels (some s) = zlog_level_atoi levels (some s2)) ∧
    (∀ s, s.map tolower = "debug".toList → zlog_level_atoi default_levels (some s) = 20) ∧
    zlog_level_atoi default_levels (some "nope".toList) = -1 := by
  have hcase : ∀ (lv : zc_arraylist_t) s s2, s.map tolower = s2.map tolower →
      zlog_level_atoi lv (some s) = zlog_level_atoi lv (some s2) := by
    intro lv s s2 h
    have hc : (cstr s).map tolower = (cstr s2).map tolower := by
      rw [cstr_map_tolower, cstr_map_tolower, h]
    have hnil : cstr s = [] ↔ cstr s2 = [] := by
      constructor <;> intro h0
      · rw [h0] at hc; simpa using hc.symm
      · rw [h0] at hc; simpa using hc
    have hm : ∀ a, slot_matches (cstr s) a = slot_matches (cstr s2) a := by
      intro a
      cases a with
      | none => rfl
      | some lv => simp only [slot_matches, STRICMP_eq, hc]
    have hloop : ∀ (slots : List (Option zlog_level_t)) (i : Nat),
        zlog_level_atoi_loop (cstr s) slots i = zlog_level_atoi_loop (cstr s2) slots i := by
      intro slots
      induction slots with
      | nil => intro i; rfl
      | cons x xs ih => intro i; simp only [zlog_level_atoi_loop, hm, ih]
    unfold zlog_level_atoi
    simp only [hloop]
    by_cases h0 : cstr s = []
    · simp [h0, hnil.mp h0]
    · have h02 : cstr s2 ≠ [] := fun e => h0 (hnil.mpr e)
      simp [h0, h02]
  refine ⟨rfl, ?_, ?_, hcase levels, ?_, default_levels_atoi_nope⟩
  · intro s hs
    simp [zlog_level_atoi, hs]
  · intro s hs
    have hatoi : zlog_level_atoi levels (some s) = zlog_level_atoi_loop (cstr s) levels 0 := by
      simp [zlog_level_atoi, hs]
    rw [hatoi]
    rcases zlog_level_atoi_loop_spec (cstr s) levels 0 with h | ⟨k, a, hk, ha, hlt, hr⟩
    · exact Or.inl h
    · refine Or.inr ⟨k, a, hk, ha, hlt, by simpa using hr, ?_⟩
      rw [hr]; omega
  · intro s hs
    rw [hcase default_levels s "debug".toList (by rw [hs]; decide)]
    exact default_levels_atoi_debug

/-! ## C9 and C10: code lookup -/

set_option maxRecDepth 100000 in
theorem default_levels_get :
    zlog_level_get default_levels 20 = some ⟨20, "DEBUG".toList, "debug".toList, 5, LOG_DEBUG⟩ ∧
    zlog_level_get default_levels 0 =
      some ⟨254, "UNKNOWN".toList, "unknown".toList, 7, LOG_ERR⟩ ∧
    zlog_level_get default_levels 300 =
      some ⟨254, "UNKNOWN".toList, "unknown".toList, 7, LOG_ERR⟩ ∧
    zlog_level_get default_levels (-5) =
      some ⟨254, "UNKNOWN".toList, "unknown".toList, 7, LOG_ERR⟩ := by
  decide

/-- C9: for every registry and every integer `p`, `zlog_level_get p` is the
record in slot `p` when `1 <= p <= 254` and slot `p` is populated, and the
content of slot 254 in every other case (`p <= 0`, `p > 254`, or slot `p`
unpopulated); on the default registry `zlog_level_get 20` is the DEBUG
record and `zlog_level_get` of 0, 300 and -5 is the UNKNOWN (254) record. -/
theorem zlog_level_get_slot_or_fallback (levels : zc_arraylist_t) (p : Int) :
    (∀ a, 1 ≤ p → p ≤ 254 → zc_arraylist_get levels p = some a →
      zlog_level_get levels p = some a) ∧
    ((p ≤ 0 ∨ 254 < p ∨ zc_arraylist_get levels p = none) →
      zlog_level_get levels p = zc_arraylist_get levels 254) ∧
    zlog_level_get default_levels 20 = some ⟨20, "DEBUG".toList, "debug".toList, 5, LOG_DEBUG⟩ ∧
    zlog_level_get default_levels 0 =
      some ⟨254, "UNKNOWN".toList, "unknown".toList, 7, LOG_ERR⟩ ∧
    zlog_level_get default_levels 300 =
      some ⟨254, "UNKNOWN".toList, "unknown".toList, 7, LOG_ERR⟩ ∧
    zlog_level_get default_levels (-5) =
      some ⟨254, "UNKNOWN".toList, "unknown".toList, 7, LOG_ERR⟩ := by
  refine ⟨?_, ?_, default_levels_get⟩
  · intro a h1 h2 ha
    have hp : ¬ (p ≤ 0 ∨ p > 254) := by omega
    simp only [zlog_level_get, zlog_level_get_run, hp, if_false, ha]
  · intro h
    by_cases hp : p ≤ 0 ∨ p > 254
    · simp only [zlog_level_get, zlog_level_get_run, hp, if_true]
      cases h254 : zc_arraylist_get levels 254 <;> rfl
    · have hn : zc_arraylist_get levels p = none := by
        rcases h with h | h | h
        · exact absurd (Or.inl h) hp
        · exact absurd (Or.inr h) hp
        · exact h
      simp only [zlog_level_get, zlog_level_get_run, hp, if_false, hn]

/-- C10: for every registry whose slot 254 is populated and every integer
`p`, `zlog_level_get p` returns a record, never `NULL`; and every index it
passes to `zc_arraylist_get` lies in [1,254]. -/
theorem zlog_level_get_total (levels : zc_arraylist_t) (p : Int)
    (h254 : (zc_arraylist_get levels 254).isSome = true) :
    (zlog_level_get levels p).isSome = true ∧
    ∀ idx ∈ (zlog_level_get_run levels p).2, 1 ≤ idx ∧ idx ≤ 254 := by
  constructor
  · by_cases hp : p ≤ 0 ∨ p > 254
    · simp only [zlog_level_get, zlog_level_get_run, hp, if_true]
      cases h : zc_arraylist_get levels 254 with
      | none => rw [h] at h254; exact absurd h254 (by simp)
      | some a => rfl
    · simp only [zlog_level_get, zlog_level_get_run, hp, if_false]
      cases h : zc_arraylist_get levels p with
      | none => exact h254
      | some a => rfl
  · intro idx hidx
    by_cases hp : p ≤ 0 ∨ p > 254
    · simp only [zlog_level_get_run, hp, if_true] at hidx
      cases h : zc_arraylist_get levels 254 with
      | none => rw [h] at h254; exact absurd h254 (by simp)
      | some a =>
        rw [h] at hidx
        simp only [List.mem_singleton] at hidx
        omega
    · simp only [zlog_level_get_run, hp, if_false] at hidx
      cases h : zc_arraylist_get levels p with
      | none =>
        rw [h] at hidx
        simp only [List.mem_cons, List.mem_singleton, List.not_mem_nil, or_false] at hidx
        omega
      | some a =>
        rw [h] at hidx
        simp only [List.mem_singleton] at hidx
        omega

set_option maxRecDepth 100000 in
/-- Witness for C10: the default registry, queried with -7. -/
theorem zlog_level_get_total_witness :
    (zlog_level_get default_levels (-7)).isSome = true ∧
    ∀ idx ∈ (zlog_level_get_run default_levels (-7)).2, 1 ≤ idx ∧ idx ≤ 254 :=
  zlog_level_get_total default_levels (-7) (by decide)

/-! ## The array list and the default set -/

theorem zc_arraylist_set_getElem (a_list : zc_arraylist_t) (idx : Int) (data : zlog_level_t)
    (i : Nat) :
    (zc_arraylist_set a_list idx data).2[i]? =
      if i = idx.toNat then some (some data)
      else if i < max a_list.length (idx.toNat + 1) then some (a_list.getD i none)
      else none := by
  unfold zc_arraylist_set
  simp only [List.getElem?_set, List.length_append, List.length_replicate]
  by_cases h : i = idx.toNat
  · subst h
    simp
    omega
  · have h2 : ¬ idx.toNat = i := fun e => h e.symm
    simp only [h, h2, if_false]
    by_cases hl : i < a_list.length
    · have : i < max a_list.length (idx.toNat + 1) := by omega
      simp [this, List.getElem?_append_left hl, List.getD_eq_getElem?_getD, List.getElem?_eq_getElem hl]
    · by_cases hm : i < max a_list.length (idx.toNat + 1)
      · simp only [hm, if_true]
        rw [List.getElem?_append_right (by omega)]
        rw [List.getElem?_replicate]
        have : i - a_list.length < idx.toNat + 1 - a_list.length := by omega
        simp [this, List.getD_eq_getElem?_getD, List.getElem?_eq_none (by omega : a_list.length ≤ i)]
      · simp only [hm, if_false]
        apply List.getElem?_eq_none
        simp
        omega

theorem zc_arraylist_get_eq (levels : zc_arraylist_t) (i : Nat) :
    zc_arraylist_get levels (i : Int) = (levels[i]?).getD none := by
  unfold zc_arraylist_get
  simp [List.getD_eq_getElem?_getD]

theorem zc_arraylist_get_some (levels : zc_arraylist_t) (i : Nat) (a : zlog_level_t) :
    zc_arraylist_get levels (i : Int) = some a ↔ levels[i]? = some (some a) := by
  rw [zc_arraylist_get_eq]
  cases h : levels[i]? with
  | none => simp
  | some x => simp

set_option maxRecDepth 100000 in
theorem default_levels_eq : default_levels = (List.range 256).map default_slot := by
  decide

theorem default_levels_getElem (i : Nat) :
    default_levels[i]? = if i < 256 then some (default_slot i) else none := by
  rw [default_levels_eq]
  by_cases h : i < 256
  · simp [h]
  · simp [h]; omega

/-- What `zlog_level_set_inner` does on a line whose scan passes the checks
on the tokens: it fails when the name does not fit or `rc` is read non-zero,
else it stores the record in the slot of its code. -/
theorem zlog_level_set_inner_of_scan (B : Nat) (u : locals_t) (levels : zc_arraylist_t)
    (line : List Char) (r : scan_t)
    (hr : sscanf_level (cstr line) u.str u.l u.sl = r) (h3 : 2 ≤ r.nscan)
    (hl : 0 ≤ r.l ∧ r.l ≤ 255) (hs : r.str ≠ [])
    (hsl : r.sl = [] ∨ syslog_level_atoi r.sl ≠ -187) :
    zlog_level_set_inner B u levels line =
      if B - 1 < r.str.length ∨ u.rc ≠ 0 then (-1, levels)
      else (0, (zc_arraylist_set levels r.l (level_of_scan r)).2) := by
  unfold zlog_level_set_inner
  rw [zlog_level_new_eq, hr]
  have h1 : ¬ r.nscan < 2 := by omega
  have h2 : ¬ (r.l < 0 ∨ r.l > 255) := by omega
  have h4 : ¬ (r.sl ≠ [] ∧ syslog_level_atoi r.sl = -187) := by
    rintro ⟨a, b⟩
    rcases hsl with h | h
    · exact a h
    · exact h b
  simp only [h1, h2, hs, h4, if_false]
  by_cases h5 : B - 1 < r.str.length
  · simp [h5]
  · by_cases h6 : u.rc ≠ 0
    · simp [h5, h6]
    · simp [h5, h6, zc_arraylist_set, level_of_scan]

set_option maxRecDepth 100000 in
/-- The `||` chain of `zlog_levels_set_default` on the empty table returns 0,
leaving the default registry, when the name buffers have at least 8 bytes and
each of the nine `zlog_level_new` calls reads `rc` as 0; otherwise it
returns 1. -/
theorem zlog_levels_set_default_eq (B : Nat) (us : Nat → locals_t) :
    ((8 ≤ B ∧ ∀ k, k < 9 → (us k).rc = 0) →
      zlog_levels_set_default B us zc_arraylist_new = (0, default_levels)) ∧
    (¬ (8 ≤ B ∧ ∀ k, k < 9 → (us k).rc = 0) →
      (zlog_levels_set_default B us zc_arraylist_new).1 = 1) := by
  have e0 : ∀ u levels, zlog_level_set_inner B u levels "* = 0, LOG_INFO".toList =
      if B - 1 < 1 ∨ u.rc ≠ 0 then (-1, levels)
      else (0, (zc_arraylist_set levels 0 ⟨0, "*".toList, "*".toList, 1, LOG_INFO⟩).2) :=
    fun u levels => zlog_level_set_inner_of_scan B u levels _
      ⟨3, "*".toList, 0, "LOG_INFO".toList⟩ rfl (by decide) (by decide) (by decide) (by decide)
  have e1 : ∀ u levels, zlog_level_set_inner B u levels "DEBUG = 20, LOG_DEBUG".toList =
      if B - 1 < 5 ∨ u.rc ≠ 0 then (-1, levels)
      else (0, (zc_arraylist_set levels 20
        ⟨20, "DEBUG".toList, "debug".toList, 5, LOG_DEBUG⟩).2) :=
    fun u levels => zlog_level_set_inner_of_scan B u levels _
      ⟨3, "DEBUG".toList, 20, "LOG_DEBUG".toList⟩ rfl (by decide) (by decide) (by decide)
      (by decide)
  have e2 : ∀ u levels, zlog_level_set_inner B u levels "INFO = 40, LOG_INFO".toList =
      if B - 1 < 4 ∨ u.rc ≠ 0 then (-1, levels)
      else (0, (zc_arraylist_set levels 40
        ⟨40, "INFO".toList, "info".toList, 4, LOG_INFO⟩).2) :=
    fun u levels => zlog_level_set_inner_of_scan B u levels _
      ⟨3, "INFO".toList, 40, "LOG_INFO".toList⟩ rfl (by decide) (by decide) (by decide)
      (by decide)
  have e3 : ∀ u levels, zlog_level_set_inner B u levels "NOTICE = 60, LOG_NOTICE".toList =
      if B - 1 < 6 ∨ u.rc ≠ 0 then (-1, levels)
      else (0, (zc_arraylist_set levels 60
        ⟨60, "NOTICE".toList, "notice".toList, 6, LOG_NOTICE⟩).2) :=
    fun u levels => zlog_level_set_inner_of_scan B u levels _
      ⟨3, "NOTICE".toList, 60, "LOG_NOTICE".toList⟩ rfl (by decide) (by decide) (by decide)
      (by decide)
  have e4 : ∀ u levels, zlog_level_set_inner B u levels "WARN = 80, LOG_WARNING".toList =
      if B - 1 < 4 ∨ u.rc ≠ 0 then (-1, levels)
      else (0, (zc_arraylist_set levels 80
        ⟨80, "WARN".toList, "warn".toList, 4, LOG_WARNING⟩).2) :=
    fun u levels => zlog_level_set_inner_of_scan B u levels _
      ⟨3, "WARN".toList, 80, "LOG_WARNING".toList⟩ rfl (by decide) (by decide) (by decide)
      (by decide)
  have e5 : ∀ u levels, zlog_level_set_inner B u levels "ERROR = 100, LOG_ERR".toList =
      if B - 1 < 5 ∨ u.rc ≠ 0 then (-1, levels)
      else (0, (zc_arraylist_set levels 100
        ⟨100, "ERROR".toList, "error".toList, 5, LOG_ERR⟩).2) :=
    fun u levels => zlog_level_set_inner_of_scan B u levels _
      ⟨3, "ERROR".toList, 100, "LOG_ERR".toList⟩ rfl (by decide) (by decide) (by decide)
      (by decide)
  have e6 : ∀ u levels, zlog_level_set_inner B u levels "FATAL = 120, LOG_ALERT".toList =
      if B - 1 < 5 ∨ u.rc ≠ 0 then (-1, levels)
      else (0, (zc_arraylist_set levels 120
        ⟨120, "FATAL".toList, "fatal".toList, 5, LOG_ALERT⟩).2) :=
    fun u levels => zlog_level_set_inner_of_scan B u levels _
      ⟨3, "FATAL".toList, 120, "LOG_ALERT".toList⟩ rfl (by decide) (by decide) (by decide)
      (by decide)
  have e7 : ∀ u levels, zlog_level_set_inner B u levels "UNKNOWN = 254, LOG_ERR".toList =
      if B - 1 < 7 ∨ u.rc ≠ 0 then (-1, levels)
      else (0, (zc_arraylist_set levels 254
        ⟨254, "UNKNOWN".toList, "unknown".toList, 7, LOG_ERR⟩).2) :=
    fun u levels => zlog_level_set_inner_of_scan B u levels _
      ⟨3, "UNKNOWN".toList, 254, "LOG_ERR".toList⟩ rfl (by decide) (by decide) (by decide)
      (by decide)
  have e8 : ∀ u levels, zlog_level_set_inner B u levels "! = 255, LOG_INFO".toList =
      if B - 1 < 1 ∨ u.rc ≠ 0 then (-1, levels)
      else (0, (zc_arraylist_set levels 255
        ⟨255, "!".toList, "!".toList, 1, LOG_INFO⟩).2) :=
    fun u levels => zlog_level_set_inner_of_scan B u levels _
      ⟨3, "!".toList, 255, "LOG_INFO".toList⟩ rfl (by decide) (by decide) (by decide)
      (by decide)
  unfold zlog_levels_set_default
  simp only [e0, e1, e2, e3, e4, e5, e6, e7, e8]
  constructor
  · rintro ⟨hB, hrc⟩
    have c0 : ¬ (B - 1 < 1 ∨ (us 0).rc ≠ 0) := by have := hrc 0 (by omega); omega
    have c1 : ¬ (B - 1 < 5 ∨ (us 1).rc ≠ 0) := by have := hrc 1 (by omega); omega
    have c2 : ¬ (B - 1 < 4 ∨ (us 2).rc ≠ 0) := by have := hrc 2 (by omega); omega
    have c3 : ¬ (B - 1 < 6 ∨ (us 3).rc ≠ 0) := by have := hrc 3 (by omega); omega
    have c4 : ¬ (B - 1 < 4 ∨ (us 4).rc ≠ 0) := by have := hrc 4 (by omega); omega
    have c5 : ¬ (B - 1 < 5 ∨ (us 5).rc ≠ 0) := by have := hrc 5 (by omega); omega
    have c6 : ¬ (B - 1 < 5 ∨ (us 6).rc ≠ 0) := by have := hrc 6 (by omega); omega
    have c7 : ¬ (B - 1 < 7 ∨ (us 7).rc ≠ 0) := by have := hrc 7 (by omega); omega
    have c8 : ¬ (B - 1 < 1 ∨ (us 8).rc ≠ 0) := by have := hrc 8 (by omega); omega
    simp only [c0, c1, c2, c3, c4, c5, c6, c7, c8, if_false, ne_eq, not_true_eq_false]
    decide
  · intro hn
    by_cases c0 : B - 1 < 1 ∨ (us 0).rc ≠ 0
    · simp only [c0, if_true, if_false, ne_eq, not_true_eq_false, not_false_eq_true]
      simp
    by_cases c1 : B - 1 < 5 ∨ (us 1).rc ≠ 0
    · simp only [c0, c1, if_true, if_false, ne_eq, not_true_eq_false, not_false_eq_true]
      simp
    by_cases c2 : B - 1 < 4 ∨ (us 2).rc ≠ 0
    · simp only [c0, c1, c2, if_true, if_false, ne_eq, not_true_eq_false, not_false_eq_true]
      simp
    by_cases c3 : B - 1 < 6 ∨ (us 3).rc ≠ 0
    · simp only [c0, c1, c2, c3, if_true, if_false, ne_eq, not_true_eq_false, not_false_eq_true]
      simp
    by_cases c4 : B - 1 < 4 ∨ (us 4).rc ≠ 0
    · simp only [c0, c1, c2, c3, c4, if_true, if_false, ne_eq, not_true_eq_false, not_false_eq_true]
      simp
    by_cases c5 : B - 1 < 5 ∨ (us 5).rc ≠ 0
    · simp only [c0, c1, c2, c3, c4, c5, if_true, if_false, ne_eq, not_true_eq_false, not_false_eq_true]
      simp
    by_cases c6 : B - 1 < 5 ∨ (us 6).rc ≠ 0
    · simp only [c0, c1, c2, c3, c4, c5, c6, if_true, if_false, ne_eq, not_true_eq_false, not_false_eq_true]
      simp
    by_cases c7 : B - 1 < 7 ∨ (us 7).rc ≠ 0
    · simp only [c0, c1, c2, c3, c4, c5, c6, c7, if_true, if_false, ne_eq, not_true_eq_false, not_false_eq_true]
      simp
    by_cases c8 : B - 1 < 1 ∨ (us 8).rc ≠ 0
    · simp only [c0, c1, c2, c3, c4, c5, c6, c7, c8, if_true, if_false, ne_eq, not_true_eq_false, not_false_eq_true]
      simp
    exfalso
    apply hn
    refine ⟨by omega, fun k hk => ?_⟩
    interval_cases k <;> omega

/-! ## Updates of the registry -/

theorem zc_arraylist_get_set (levels : zc_arraylist_t) (idx : Int) (data : zlog_level_t)
    (j : Int) (h0 : 0 ≤ idx) :
    zc_arraylist_get (zc_arraylist_set levels idx data).2 j =
      if j = idx then some data else zc_arraylist_get levels j := by
  by_cases hj : j < 0
  · have hne : j ≠ idx := by omega
    simp [zc_arraylist_get, hj, hne]
  · obtain ⟨n, rfl⟩ : ∃ n : Nat, j = (n : Int) := ⟨j.toNat, by omega⟩
    rw [zc_arraylist_get_eq, zc_arraylist_get_eq, zc_arraylist_set_getElem]
    by_cases hn : n = idx.toNat
    · have : (n : Int) = idx := by omega
      simp [hn, this, h0]
    · have : (n : Int) ≠ idx := by omega
      simp only [hn, this, if_false]
      by_cases hm : n < max levels.length (idx.toNat + 1)
      · simp [hm, List.getD_eq_getElem?_getD]
      · have hlen : levels.length ≤ n := by omega
        simp [hm, List.getElem?_eq_none hlen]

/-- A record `zlog_level_new` returns has its code in [0,255], was returned
with `rc` read as 0, and is the record of the scan. -/
theorem zlog_level_new_some (B : Nat) (u : locals_t) (line : List Char) (a : zlog_level_t)
    (h : zlog_level_new B u line = some a) :
    0 ≤ a.int_level ∧ a.int_level ≤ 255 ∧ u.rc = 0 ∧
      a = level_of_scan (sscanf_level (cstr line) u.str u.l u.sl) := by
  rw [zlog_level_new_eq] at h
  generalize sscanf_level (cstr line) u.str u.l u.sl = r at h ⊢
  simp only [] at h
  split_ifs at h with h1 h2 h3 h4 h5 h6
  simp only [Option.some.injEq] at h
  subst h
  refine ⟨by simp only [level_of_scan]; omega, by simp only [level_of_scan]; omega, ?_, rfl⟩
  simpa using h6

theorem zlog_level_set_eq (B : Nat) (u : locals_t) (levels : zc_arraylist_t)
    (line : List Char) :
    zlog_level_set B u levels line =
      match zlog_level_new B u line with
      | none => (-1, levels)
      | some a => (0, (zc_arraylist_set levels a.int_level a).2) := by
  unfold zlog_level_set zlog_level_set_inner
  cases h : zlog_level_new B u line with
  | none => simp
  | some a => simp [zc_arraylist_set]

/-! ## C11: code lookup without fallback slot -/

/-- C11 (as amended): for every registry in which slot 254 is unpopulated and
every `p` that is out of range (`p <= 0` or `p > 254`) or names an
unpopulated slot, `zlog_level_get p` returns `NULL`, the content of slot
254. -/
theorem zlog_level_get_no_fallback (levels : zc_arraylist_t) (p : Int)
    (h254 : zc_arraylist_get levels 254 = none)
    (hp : p ≤ 0 ∨ 254 < p ∨ zc_arraylist_get levels p = none) :
    zlog_level_get levels p = none := by
  by_cases hr : p ≤ 0 ∨ p > 254
  · simp only [zlog_level_get, zlog_level_get_run, hr, if_true, h254]
  · have hn : zc_arraylist_get levels p = none := by
      rcases hp with h | h | h
      · exact absurd (Or.inl h) hr
      · exact absurd (Or.inr h) hr
      · exact h
    simp only [zlog_level_get, zlog_level_get_run, hr, if_false, hn, h254]

/-- Witness for C11: the empty registry, queried with 300. -/
theorem zlog_level_get_no_fallback_witness :
    zlog_level_get zc_arraylist_new 300 = none :=
  zlog_level_get_no_fallback zc_arraylist_new 300 (by decide) (by decide)

/-- C11 (as stated) fails: in the registry that holds only the DEBUG record
in slot 20, slot 254 is unpopulated, and `zlog_level_get` returns `NULL` for
the out-of-range codes 300 and 0 and for the unpopulated slot 21. -/
theorem zlog_level_get_no_fallback_counterexample :
    zc_arraylist_get
        (zc_arraylist_set zc_arraylist_new 20
          ⟨20, "DEBUG".toList, "debug".toList, 5, LOG_DEBUG⟩).2 254 = none ∧
    zlog_level_get
        (zc_arraylist_set zc_arraylist_new 20
          ⟨20, "DEBUG".toList, "debug".toList, 5, LOG_DEBUG⟩).2 300 = none ∧
    zlog_level_get
        (zc_arraylist_set zc_arraylist_new 20
          ⟨20, "DEBUG".toList, "debug".toList, 5, LOG_DEBUG⟩).2 0 = none ∧
    zlog_level_get
        (zc_arraylist_set zc_arraylist_new 20
          ⟨20, "DEBUG".toList, "debug".toList, 5, LOG_DEBUG⟩).2 21 = none := by
  decide

/-! ## C12: two lines with the same code -/

/-- C12 (as amended): for every registry and every two lines that both parse
successfully to the same `CODE`, `zlog_level_set` of the first and then of
the second returns 0 both times; slot `CODE` holds the first record in
between and the second record afterwards; and afterwards
`zlog_level_get(CODE)` returns the second record when `1 <= CODE <= 254`,
and the content of slot 254 when `CODE` is 0 or 255. -/
theorem zlog_level_set_last_write_wins (B : Nat) (u1 u2 : locals_t) (levels : zc_arraylist_t)
    (line1 line2 : List Char) (a1 a2 : zlog_level_t) (code : Int)
    (h1 : zlog_level_new B u1 line1 = some a1) (h2 : zlog_level_new B u2 line2 = some a2)
    (hc1 : a1.int_level = code) (hc2 : a2.int_level = code) :
    (zlog_level_set B u1 levels line1).1 = 0 ∧
    zc_arraylist_get (zlog_level_set B u1 levels line1).2 code = some a1 ∧
    (zlog_level_set B u2 (zlog_level_set B u1 levels line1).2 line2).1 = 0 ∧
    zc_arraylist_get (zlog_level_set B u2 (zlog_level_set B u1 levels line1).2 line2).2
      code = some a2 ∧
    (1 ≤ code → code ≤ 254 →
      zlog_level_get (zlog_level_set B u2 (zlog_level_set B u1 levels line1).2 line2).2
        code = some a2) ∧
    ((code = 0 ∨ code = 255) →
      zlog_level_get (zlog_level_set B u2 (zlog_level_set B u1 levels line1).2 line2).2
          code =
        zc_arraylist_get (zlog_level_set B u2 (zlog_level_set B u1 levels line1).2 line2).2
          254) := by
  have hr1 := zlog_level_new_some B u1 line1 a1 h1
  have hr := zlog_level_new_some B u2 line2 a2 h2
  rw [zlog_level_set_eq B u1, h1]
  simp only []
  rw [zlog_level_set_eq B u2, h2]
  simp only []
  rw [hc1, hc2]
  rw [hc1] at hr1
  rw [hc2] at hr
  have hget1 := zc_arraylist_get_set levels code a1 code hr1.1
  rw [if_pos rfl] at hget1
  have hget := zc_arraylist_get_set (zc_arraylist_set levels code a1).2 code a2 code hr.1
  rw [if_pos rfl] at hget
  refine ⟨trivial, hget1, trivial, hget, ?_, ?_⟩
  · intro h1 h254
    have hp : ¬ (code ≤ 0 ∨ code > 254) := by omega
    simp only [zlog_level_get, zlog_level_get_run, hp, if_false, hget]
  · intro h
    have hp : code ≤ 0 ∨ code > 254 := by omega
    simp only [zlog_level_get, zlog_level_get_run, hp, if_true]
    cases h254 : zc_arraylist_get (zc_arraylist_set (zc_arraylist_set levels code a1).2
      code a2).2 254 <;> rfl

set_option maxRecDepth 100000 in
/-- Witness for C12: `TRACE = 10, LOG_DEBUG` and then `FINE = 10, LOG_INFO` on
the default registry. -/
theorem zlog_level_set_last_write_wins_witness :
    zlog_level_get (zlog_level_set 1025 ⟨0, [], 0, []⟩
      (zlog_level_set 1025 ⟨0, [], 0, []⟩ default_levels "TRACE = 10, LOG_DEBUG".toList).2
      "FINE = 10, LOG_INFO".toList).2 10 =
        some ⟨10, "FINE".toList, "fine".toList, 4, LOG_INFO⟩ :=
  (zlog_level_set_last_write_wins 1025 ⟨0, [], 0, []⟩ ⟨0, [], 0, []⟩ default_levels
    "TRACE = 10, LOG_DEBUG".toList "FINE = 10, LOG_INFO".toList
    ⟨10, "TRACE".toList, "trace".toList, 5, LOG_DEBUG⟩
    ⟨10, "FINE".toList, "fine".toList, 4, LOG_INFO⟩ 10 (by decide) (by decide) rfl
    rfl).2.2.2.2.1 (by decide) (by decide)

set_option maxRecDepth 100000 in
/-- C12 (as stated) fails: the lines `A = 0, LOG_ERR` and `B = 0, LOG_ERR`
both parse to code 0 and both `zlog_level_set` calls on the default registry
return 0, yet `zlog_level_get(0)` afterwards is the UNKNOWN record of slot
254, not the record of the second line. -/
theorem zlog_level_set_code_zero_counterexample :
    zlog_level_new 1025 ⟨0, [], 0, []⟩ "A = 0, LOG_ERR".toList =
      some ⟨0, ['A'], ['a'], 1, LOG_ERR⟩ ∧
    zlog_level_new 1025 ⟨0, [], 0, []⟩ "B = 0, LOG_ERR".toList =
      some ⟨0, ['B'], ['b'], 1, LOG_ERR⟩ ∧
    (zlog_level_set 1025 ⟨0, [], 0, []⟩ default_levels "A = 0, LOG_ERR".toList).1 = 0 ∧
    (zlog_level_set 1025 ⟨0, [], 0, []⟩
      (zlog_level_set 1025 ⟨0, [], 0, []⟩ default_levels "A = 0, LOG_ERR".toList).2
      "B = 0, LOG_ERR".toList).1 = 0 ∧
    zlog_level_get (zlog_level_set 1025 ⟨0, [], 0, []⟩
      (zlog_level_set 1025 ⟨0, [], 0, []⟩ default_levels "A = 0, LOG_ERR".toList).2
      "B = 0, LOG_ERR".toList).2 0 =
      some ⟨254, "UNKNOWN".toList, "unknown".toList, 7, LOG_ERR⟩ ∧
    zlog_level_get (zlog_level_set 1025 ⟨0, [], 0, []⟩
      (zlog_level_set 1025 ⟨0, [], 0, []⟩ default_levels "A = 0, LOG_ERR".toList).2
      "B = 0, LOG_ERR".toList).2 0 ≠ some ⟨0, ['B'], ['b'], 1, LOG_ERR⟩ := by
  decide

/-! ## C13: failed updates -/

theorem zlog_levels_init_eq (B : Nat) (us : Nat → locals_t) (env : Option zc_arraylist_t) :
    zlog_levels_init B us env =
      if 8 ≤ B ∧ ∀ k, k < 9 → (us k).rc = 0 then (0, some default_levels) else (-1, env) := by
  unfold zlog_levels_init
  by_cases h : 8 ≤ B ∧ ∀ k, k < 9 → (us k).rc = 0
  · rw [if_pos h]
    simp only [(zlog_levels_set_default_eq B us).1 h]
    simp
  · rw [if_neg h]
    have h1 := (zlog_levels_set_default_eq B us).2 h
    simp [h1]

theorem zlog_levels_reset_eq (B : Nat) (us : Nat → locals_t) (env : Option zc_arraylist_t) :
    zlog_levels_reset B us env =
      if 8 ≤ B ∧ ∀ k, k < 9 → (us k).rc = 0 then (0, some default_levels) else (-1, env) := by
  unfold zlog_levels_reset
  by_cases h : 8 ≤ B ∧ ∀ k, k < 9 → (us k).rc = 0
  · rw [if_pos h]
    simp only [(zlog_levels_set_default_eq B us).1 h]
    simp
  · rw [if_neg h]
    have h1 := (zlog_levels_set_default_eq B us).2 h
    simp [h1]

/-- C13: for every registry and every line that `zlog_level_new` rejects,
`zlog_level_set` returns -1 and leaves the table as it was; and whenever
`zlog_levels_reset` returns -1 the global still points to the table it
pointed to before, so every `zlog_level_atoi` and `zlog_level_get` query on
the live table answers as before. -/
theorem zlog_failed_update_keeps_registry (B : Nat) (levels : zc_arraylist_t) :
    (∀ u line, zlog_level_new B u line = none →
      zlog_level_set B u levels line = (-1, levels)) ∧
    (∀ us, (zlog_levels_reset B us (some levels)).1 = -1 →
      (zlog_levels_reset B us (some levels)).2 = some levels ∧
      (∀ live, (zlog_levels_reset B us (some levels)).2 = some live →
        (∀ s, zlog_level_atoi live s = zlog_level_atoi levels s) ∧
        (∀ p, zlog_level_get live p = zlog_level_get levels p))) := by
  constructor
  · intro u line h
    rw [zlog_level_set_eq, h]
  · intro us h
    rw [zlog_levels_reset_eq] at h ⊢
    by_cases hc : 8 ≤ B ∧ ∀ k, k < 9 → (us k).rc = 0
    · rw [if_pos hc] at h
      exact absurd h (by decide)
    · rw [if_neg hc]
      refine ⟨rfl, fun live hl => ?_⟩
      simp only [Option.some.injEq] at hl
      subst hl
      exact ⟨fun _ => rfl, fun _ => rfl⟩

set_option maxRecDepth 100000 in
/-- Witness for C13: on the default registry the line `DEBUG = 300` is
rejected, and a reset whose first `zlog_level_new` call reads `rc` as 1
fails. -/
theorem zlog_failed_update_keeps_registry_witness :
    zlog_level_set 1025 ⟨0, [], 0, []⟩ default_levels "DEBUG = 300".toList =
      (-1, default_levels) ∧
    (zlog_levels_reset 1025 (fun _ => ⟨1, [], 0, []⟩) (some default_levels)).2 =
      some default_levels :=
  ⟨(zlog_failed_update_keeps_registry 1025 default_levels).1 ⟨0, [], 0, []⟩
      "DEBUG = 300".toList (by decide),
   ((zlog_failed_update_keeps_registry 1025 default_levels).2 (fun _ => ⟨1, [], 0, []⟩)
      (by decide)).1⟩

/-! ## C14: the default set -/

set_option maxRecDepth 100000 in
/-- C14: whenever `zlog_levels_init` or `zlog_levels_reset` returns 0 the
global points to the default registry, whatever it pointed to before, and
that registry has 256 slots with exactly the nine populated ones of the
default set, each holding its name and priority. But
`zlog_levels_set_default` returns 0 only if each of its nine
`zlog_level_new` calls reads the uninitialised `rc` as 0 (and the name
buffers have 8 bytes or more); at the failing input, `rc` holding 1, it
returns 1 with nothing stored and `zlog_levels_init` returns -1. -/
theorem zlog_levels_default_set (B : Nat) (us : Nat → locals_t)
    (env : Option zc_arraylist_t) :
    (∀ env2, zlog_levels_init B us env = (0, env2) → env2 = some default_levels) ∧
    (∀ env2, zlog_levels_reset B us env = (0, env2) → env2 = some default_levels) ∧
    (∀ i : Nat, default_levels[i]? = if i < 256 then some (default_slot i) else none) ∧
    (∀ i : Nat, (default_slot i).isSome = true ↔
      i ∈ [0, 20, 40, 60, 80, 100, 120, 254, 255]) ∧
    ((zlog_levels_set_default B us zc_arraylist_new).1 = 0 ↔
      (8 ≤ B ∧ ∀ k, k < 9 → (us k).rc = 0)) ∧
    zlog_levels_set_default 1025 (fun _ => ⟨1, [], 0, []⟩) zc_arraylist_new = (1, []) ∧
    zlog_levels_init 1025 (fun _ => ⟨1, [], 0, []⟩) none = (-1, none) ∧
    zlog_levels_init 1025 (fun _ => ⟨0, [], 0, []⟩) none = (0, some default_levels) := by
  refine ⟨?_, ?_, default_levels_getElem, ?_, ?_, by decide, by decide, by decide⟩
  · intro env2 h
    rw [zlog_levels_init_eq] at h
    split_ifs at h
    · simp only [Prod.mk.injEq, true_and] at h
      exact h.symm
    · simp at h
  · intro env2 h
    rw [zlog_levels_reset_eq] at h
    split_ifs at h
    · simp only [Prod.mk.injEq, true_and] at h
      exact h.symm
    · simp at h
  · intro i
    unfold default_slot
    split_ifs <;> simp_all
  · constructor
    · intro h
      by_contra hc
      rw [(zlog_levels_set_default_eq B us).2 hc] at h
      exact absurd h (by decide)
    · intro h
      rw [(zlog_levels_set_default_eq B us).1 h]

/-! ## C15: syslog names -/

/-- C15: `syslog_level_atoi` maps every string that equals one of the eight
names ignoring case to the priority of that name; the eight priorities are
pairwise distinct and none is -187; and it returns -187 exactly for the
strings that equal none of the eight names ignoring case. -/
theorem syslog_level_atoi_names (str : List Char) :
    (∀ p ∈ syslog_names, str.map tolower = p.1.map tolower → syslog_level_atoi str = p.2) ∧
    (syslog_names.map (fun p => p.2)).Nodup ∧
    (∀ p ∈ syslog_names, p.2 ≠ -187) ∧
    (syslog_level_atoi str = -187 ↔
      ∀ p ∈ syslog_names, str.map tolower ≠ p.1.map tolower) := by
  have hmap : ∀ p ∈ syslog_names, str.map tolower = p.1.map tolower →
      syslog_level_atoi str = p.2 := by
    intro p hp hs
    simp only [syslog_names, List.mem_cons, List.mem_singleton, List.not_mem_nil,
      or_false] at hp
    unfold syslog_level_atoi STRICMP_eq
    rcases hp with rfl | rfl | rfl | rfl | rfl | rfl | rfl | rfl <;>
      (rw [hs]; decide)
  have hne : ∀ p ∈ syslog_names, p.2 ≠ -187 := by decide
  refine ⟨hmap, by decide, hne, ?_, ?_⟩
  · intro h p hp hs
    exact hne p hp ((hmap p hp hs).symm.trans h)
  · intro h
    have hX : ∀ p ∈ syslog_names, STRICMP_eq str p.1 = false := by
      intro p hp
      simpa [STRICMP_eq] using h p hp
    unfold syslog_level_atoi
    simp only [syslog_names, List.mem_cons, List.mem_singleton, forall_eq_or_imp,
      forall_eq, List.not_mem_nil, false_implies, implies_true, and_true] at hX
    obtain ⟨a1, a2, a3, a4, a5, a6, a7, a8⟩ := hX
    simp only [a1, a2, a3, a4, a5, a6, a7, a8, Bool.false_eq_true, if_false]

/-! ## C16: the status variable `rc` -/

/-- C16 (code at the failing input): on the path where the scan stores the
name and the code, the code is in range, the syslog name is accepted or
defaulted and the name fits the buffer, the value tested at the exit label
is the one `rc` held when the function was entered: nothing assigns `rc` on
that path. With 1 left in `rc`, the line `DEBUG = 20, LOG_DEBUG` gives
`NULL`; with 0 it gives the record. -/
theorem zlog_level_new_rc_unassigned (B : Nat) (u : locals_t) (line : List Char) :
    (2 ≤ (sscanf_level (cstr line) u.str u.l u.sl).nscan →
      0 ≤ (sscanf_level (cstr line) u.str u.l u.sl).l →
      (sscanf_level (cstr line) u.str u.l u.sl).l ≤ 255 →
      ((sscanf_level (cstr line) u.str u.l u.sl).sl = [] ∨
        syslog_level_atoi (sscanf_level (cstr line) u.str u.l u.sl).sl ≠ -187) →
      (sscanf_level (cstr line) u.str u.l u.sl).str.length ≤ B - 1 →
      zlog_level_new B u line =
        zlog_level_new_exit u.rc (level_of_scan (sscanf_level (cstr line) u.str u.l u.sl))) ∧
    (u.rc ≠ 0 → zlog_level_new B u line = none) ∧
    zlog_level_new 1025 ⟨1, [], 0, []⟩ "DEBUG = 20, LOG_DEBUG".toList = none ∧
    zlog_level_new 1025 ⟨0, [], 0, []⟩ "DEBUG = 20, LOG_DEBUG".toList =
      some ⟨20, "DEBUG".toList, "debug".toList, 5, LOG_DEBUG⟩ := by
  have hf := (sscanf_level_facts (cstr line) u.str u.l u.sl).2.1
  rw [zlog_level_new_eq]
  generalize sscanf_level (cstr line) u.str u.l u.sl = r at hf ⊢
  simp only [] at hf ⊢
  refine ⟨?_, ?_, by decide, by decide⟩
  · intro h2 hl0 hl1 hsl hlen
    have h1 : ¬ r.nscan < 2 := by omega
    have h2b : ¬ (r.l < 0 ∨ r.l > 255) := by omega
    have h3 : ¬ r.str = [] := (hf (by omega)).1
    have h4 : ¬ (r.sl ≠ [] ∧ syslog_level_atoi r.sl = -187) := by
      rintro ⟨a, b⟩
      rcases hsl with h | h
      · exact a h
      · exact h b
    have h5 : ¬ (B - 1 < r.str.length) := by omega
    rw [if_neg h1, if_neg h2b, if_neg h3, if_neg h4, if_neg h5]
    rfl
  · intro hrc
    split_ifs <;> rfl

/-! ## Reachable registries -/

theorem slot_index_inv_default : slot_index_inv default_levels := by
  intro i a h
  rw [default_levels_getElem] at h
  by_cases hi : i < 256
  · rw [if_pos hi] at h
    simp only [Option.some.injEq] at h
    refine ⟨?_, by omega⟩
    unfold default_slot at h
    split_ifs at h with h0 h1 h2 h3 h4 h5 h6 h7 h8 <;>
      simp only [Option.some.injEq] at h <;> subst h <;> simp_all
  · rw [if_neg hi] at h
    exact absurd h (by simp)

theorem slot_index_inv_set (levels : zc_arraylist_t) (a : zlog_level_t)
    (hinv : slot_index_inv levels) (h0 : 0 ≤ a.int_level) (h1 : a.int_level ≤ 255) :
    slot_index_inv (zc_arraylist_set levels a.int_level a).2 := by
  intro i b h
  rw [zc_arraylist_set_getElem] at h
  by_cases hi : i = a.int_level.toNat
  · rw [if_pos hi] at h
    simp only [Option.some.injEq] at h
    subst h
    constructor <;> omega
  · rw [if_neg hi] at h
    by_cases hm : i < max levels.length (a.int_level.toNat + 1)
    · rw [if_pos hm] at h
      simp only [Option.some.injEq, List.getD_eq_getElem?_getD] at h
      apply hinv i b
      cases hl : levels[i]? with
      | none => rw [hl] at h; simp at h
      | some x => rw [hl] at h; simp at h; rw [h]
    · rw [if_neg hm] at h
      exact absurd h (by simp)

theorem zlog_call_set (B : Nat) (levels : zc_arraylist_t) (u : locals_t) (line : List Char) :
    zlog_call B levels (call_t.set u line) = (zlog_level_set B u levels line).2 := rfl

theorem zlog_call_reset (B : Nat) (levels : zc_arraylist_t) (us : Nat → locals_t) :
    zlog_call B levels (call_t.reset us) =
      match (zlog_levels_reset B us (some levels)).2 with
      | some levels2 => levels2
      | none => levels := rfl

theorem zlog_call_cases (B : Nat) (levels : zc_arraylist_t) (c : call_t) :
    zlog_call B levels c = levels ∨ zlog_call B levels c = default_levels ∨
      ∃ u line a, c = call_t.set u line ∧ zlog_level_new B u line = some a ∧
        zlog_call B levels c = (zc_arraylist_set levels a.int_level a).2 := by
  cases c with
  | set u line =>
    rw [zlog_call_set, zlog_level_set_eq]
    obtain h | ⟨a, h⟩ : zlog_level_new B u line = none ∨
        ∃ a, zlog_level_new B u line = some a := by
      cases zlog_level_new B u line with
      | none => exact Or.inl rfl
      | some a => exact Or.inr ⟨a, rfl⟩
    · rw [h]
      exact Or.inl rfl
    · rw [h]
      exact Or.inr (Or.inr ⟨u, line, a, rfl, h, rfl⟩)
  | reset us =>
    rw [zlog_call_reset, zlog_levels_reset_eq]
    by_cases hc : 8 ≤ B ∧ ∀ k, k < 9 → (us k).rc = 0
    · rw [if_pos hc]
      exact Or.inr (Or.inl rfl)
    · rw [if_neg hc]
      exact Or.inl rfl

theorem zlog_calls_induction (B : Nat) (P : zc_arraylist_t → Prop)
    (hdef : P default_levels)
    (hset : ∀ levels u line a, P levels → zlog_level_new B u line = some a →
      P (zc_arraylist_set levels a.int_level a).2) :
    ∀ (calls : List call_t) (levels : zc_arraylist_t), P levels →
      P (zlog_calls B levels calls) := by
  intro calls
  induction calls with
  | nil => intro levels h; exact h
  | cons c cs ih =>
    intro levels h
    unfold zlog_calls
    rw [List.foldl_cons]
    apply ih
    rcases zlog_call_cases B levels c with h1 | h1 | ⟨u, line, a, _, hn, h1⟩
    · rw [h1]; exact h
    · rw [h1]; exact hdef
    · rw [h1]; exact hset levels u line a h hn

theorem zlog_levels_init_some (B : Nat) (us : Nat → locals_t) (env : Option zc_arraylist_t)
    (levels : zc_arraylist_t) (h : zlog_levels_init B us env = (0, some levels)) :
    levels = default_levels := by
  rw [zlog_levels_init_eq] at h
  split_ifs at h
  · simp only [Prod.mk.injEq, true_and, Option.some.injEq] at h
    exact h.symm
  · simp at h

theorem slot_index_inv_calls (B : Nat) (calls : List call_t) :
    slot_index_inv (zlog_calls B default_levels calls) :=
  zlog_calls_induction B slot_index_inv slot_index_inv_default
    (fun levels u line a h hn =>
      slot_index_inv_set levels a h (zlog_level_new_some B u line a hn).1
        (zlog_level_new_some B u line a hn).2.1)
    calls default_levels slot_index_inv_default

/-- A non-negative result of `zlog_level_atoi` is the index of a populated
slot whose stored name equals the string ignoring case. -/
theorem zlog_level_atoi_found (levels : zc_arraylist_t) (str : Option (List Char)) (c : Int)
    (hc : zlog_level_atoi levels str = c) (h0 : 0 ≤ c) :
    ∃ (s : List Char) (i : Nat) (a : zlog_level_t), str = some s ∧ c = (i : Int) ∧
      levels[i]? = some (some a) ∧ STRICMP_eq (cstr s) a.str_uppercase = true := by
  cases str with
  | none => simp [zlog_level_atoi] at hc; omega
  | some s =>
    by_cases hs : cstr s = []
    · simp [zlog_level_atoi, hs] at hc; omega
    · have hatoi : zlog_level_atoi levels (some s) = zlog_level_atoi_loop (cstr s) levels 0 := by
        simp [zlog_level_atoi, hs]
      rw [hatoi] at hc
      rcases zlog_level_atoi_loop_spec (cstr s) levels 0 with ⟨_, hr⟩ | ⟨k, a, hk, ha, _, hr⟩
      · rw [hr] at hc; omega
      · cases a with
        | none => simp [slot_matches] at ha
        | some lv =>
          refine ⟨s, k, lv, rfl, ?_, hk, by simpa [slot_matches] using ha⟩
          rw [← hc, hr]; simp

theorem zlog_level_get_of_fallback (levels : zc_arraylist_t) (p : Int)
    (h254 : (zc_arraylist_get levels 254).isSome = true) :
    (zlog_level_get levels p).isSome = true := by
  by_cases hp : p ≤ 0 ∨ p > 254
  · simp only [zlog_level_get, zlog_level_get_run, hp, if_true]
    cases h : zc_arraylist_get levels 254 with
    | none => rw [h] at h254; exact absurd h254 (by simp)
    | some a => rfl
  · simp only [zlog_level_get, zlog_level_get_run, hp, if_false]
    cases h : zc_arraylist_get levels p with
    | none => exact h254
    | some a => rfl

/-! ## C17: the slot-index invariant -/

/-- C17: in every registry reached from a successful `zlog_levels_init` by any
sequence of `zlog_level_set` and `zlog_levels_reset` calls, every populated
slot `i` holds a record whose `int_level` is `i`, with `i` at most 255; and
a non-negative result `c` of `zlog_level_atoi` on such a registry is at most
255, differs from -1, and is the `int_level` of the record in slot `c`,
whose stored name equals the query ignoring case. -/
theorem zlog_slot_index_invariant (B : Nat) (us0 : Nat → locals_t)
    (env0 : Option zc_arraylist_t) (levels0 : zc_arraylist_t) (calls : List call_t)
    (hinit : zlog_levels_init B us0 env0 = (0, some levels0)) :
    slot_index_inv (zlog_calls B levels0 calls) ∧
    ∀ (str : Option (List Char)) (c : Int),
      zlog_level_atoi (zlog_calls B levels0 calls) str = c → 0 ≤ c →
      c ≤ 255 ∧ c ≠ -1 ∧
      ∃ (s : List Char) (a : zlog_level_t), str = some s ∧
        zc_arraylist_get (zlog_calls B levels0 calls) c = some a ∧ a.int_level = c ∧
        STRICMP_eq (cstr s) a.str_uppercase = true := by
  have h0 := zlog_levels_init_some B us0 env0 levels0 hinit
  subst h0
  have hinv := slot_index_inv_calls B calls
  refine ⟨hinv, fun str c hc hc0 => ?_⟩
  obtain ⟨s, i, a, hs, hi, hslot, hm⟩ := zlog_level_atoi_found _ str c hc hc0
  have hia := hinv i a hslot
  subst hi
  refine ⟨by omega, by omega, s, a, hs, ?_, hia.1, hm⟩
  exact (zc_arraylist_get_some _ i a).mpr hslot

set_option maxRecDepth 100000 in
/-- Witness for C17: after `zlog_levels_init`, `TRACE = 10, LOG_DEBUG`, a
rejected line and a reset, the invariant holds. -/
theorem zlog_slot_index_invariant_witness :
    slot_index_inv (zlog_calls 1025 default_levels
      [call_t.set ⟨0, [], 0, []⟩ "TRACE = 10, LOG_DEBUG".toList,
       call_t.set ⟨0, [], 0, []⟩ "TRACE 10".toList,
       call_t.reset (fun _ => ⟨0, [], 0, []⟩)]) :=
  (zlog_slot_index_invariant 1025 (fun _ => ⟨0, [], 0, []⟩) none default_levels
    [call_t.set ⟨0, [], 0, []⟩ "TRACE = 10, LOG_DEBUG".toList,
     call_t.set ⟨0, [], 0, []⟩ "TRACE 10".toList,
     call_t.reset (fun _ => ⟨0, [], 0, []⟩)] (by decide)).1

/-! ## C18: the fallback slot -/

/-- C18 (as amended): once `zlog_levels_init` has succeeded, slot 254 is
populated in every registry reached by any sequence of `zlog_level_set` and
`zlog_levels_reset` calls, because `zlog_level_set` never empties a slot and
a `zlog_levels_reset` call either leaves the table as it was or installs the
default registry, whose slot 254 is populated; hence `zlog_level_get(p)`
returns a record for every integer `p`. -/
theorem zlog_fallback_slot_invariant (B : Nat) (us0 : Nat → locals_t)
    (env0 : Option zc_arraylist_t) (levels0 : zc_arraylist_t) (calls : List call_t)
    (hinit : zlog_levels_init B us0 env0 = (0, some levels0)) :
    (zc_arraylist_get (zlog_calls B levels0 calls) 254).isSome = true ∧
    (∀ p : Int, (zlog_level_get (zlog_calls B levels0 calls) p).isSome = true) ∧
    (∀ (levels : zc_arraylist_t) (u : locals_t) (line : List Char) (i : Int),
      (zc_arraylist_get levels i).isSome = true →
      (zc_arraylist_get (zlog_call B levels (call_t.set u line)) i).isSome = true) ∧
    (∀ (levels : zc_arraylist_t) (us : Nat → locals_t),
      zlog_call B levels (call_t.reset us) = levels ∨
      zlog_call B levels (call_t.reset us) = default_levels) := by
  have h0 := zlog_levels_init_some B us0 env0 levels0 hinit
  subst h0
  have hset : ∀ (levels : zc_arraylist_t) (a : zlog_level_t) (i : Int), 0 ≤ a.int_level →
      (zc_arraylist_get levels i).isSome = true →
      (zc_arraylist_get (zc_arraylist_set levels a.int_level a).2 i).isSome = true := by
    intro levels a i ha h
    rw [zc_arraylist_get_set levels a.int_level a i ha]
    split_ifs
    · rfl
    · exact h
  have hdef : (zc_arraylist_get default_levels 254).isSome = true := by
    rw [show (254 : Int) = ((254 : Nat) : Int) from rfl, zc_arraylist_get_eq,
      default_levels_getElem]
    decide
  have h254 : (zc_arraylist_get (zlog_calls B default_levels calls) 254).isSome = true :=
    zlog_calls_induction B (fun levels => (zc_arraylist_get levels 254).isSome = true) hdef
      (fun levels u line a h hn => hset levels a 254 (zlog_level_new_some B u line a hn).1 h)
      calls default_levels hdef
  refine ⟨h254, fun p => zlog_level_get_of_fallback _ p h254, ?_, ?_⟩
  · intro levels u line i h
    rw [zlog_call_set, zlog_level_set_eq]
    obtain hn | ⟨a, hn⟩ : zlog_level_new B u line = none ∨
        ∃ a, zlog_level_new B u line = some a := by
      cases zlog_level_new B u line with
      | none => exact Or.inl rfl
      | some a => exact Or.inr ⟨a, rfl⟩
    · rw [hn]; exact h
    · rw [hn]; exact hset levels a i (zlog_level_new_some B u line a hn).1 h
  · intro levels us
    rcases zlog_call_cases B levels (call_t.reset us) with h | h | ⟨u, line, a, hc, _⟩
    · exact Or.inl h
    · exact Or.inr h
    · exact absurd hc (by simp)

set_option maxRecDepth 100000 in
/-- Witness for C18: after `zlog_levels_init`, a line that redefines code 254
and a reset that fails, slot 254 is populated. -/
theorem zlog_fallback_slot_invariant_witness :
    (zc_arraylist_get (zlog_calls 1025 default_levels
      [call_t.set ⟨0, [], 0, []⟩ "OTHER = 254, LOG_INFO".toList,
       call_t.reset (fun _ => ⟨1, [], 0, []⟩)]) 254).isSome = true :=
  (zlog_fallback_slot_invariant 1025 (fun _ => ⟨0, [], 0, []⟩) none default_levels
    [call_t.set ⟨0, [], 0, []⟩ "OTHER = 254, LOG_INFO".toList,
     call_t.reset (fun _ => ⟨1, [], 0, []⟩)] (by decide)).1

set_option maxRecDepth 100000 in
/-- C18 (as stated) fails in its reason: after `zlog_levels_init`, the line
`TRACE = 10, LOG_DEBUG` populates slot 10, and a successful
`zlog_levels_reset` leaves slot 10 unpopulated. -/
theorem zlog_reset_empties_slot_counterexample :
    zlog_levels_init 1025 (fun _ => ⟨0, [], 0, []⟩) none = (0, some default_levels) ∧
    zc_arraylist_get (zlog_calls 1025 default_levels
      [call_t.set ⟨0, [], 0, []⟩ "TRACE = 10, LOG_DEBUG".toList]) 10 =
        some ⟨10, "TRACE".toList, "trace".toList, 5, LOG_DEBUG⟩ ∧
    (zlog_levels_reset 1025 (fun _ => ⟨0, [], 0, []⟩) (some (zlog_calls 1025 default_levels
      [call_t.set ⟨0, [], 0, []⟩ "TRACE = 10, LOG_DEBUG".toList]))).1 = 0 ∧
    zc_arraylist_get (zlog_calls 1025 default_levels
      [call_t.set ⟨0, [], 0, []⟩ "TRACE = 10, LOG_DEBUG".toList,
       call_t.reset (fun _ => ⟨0, [], 0, []⟩)]) 10 = none := by
  decide

/-! ## C19: from name to code to record -/

set_option maxRecDepth 100000 in
theorem default_levels_round_trip :
    ∀ p ∈ [("DEBUG".toList, (20 : Int)), ("INFO".toList, 40), ("NOTICE".toList, 60),
        ("WARN".toList, 80), ("ERROR".toList, 100), ("FATAL".toList, 120),
        ("UNKNOWN".toList, 254)],
      zlog_level_atoi default_levels (some p.1) = p.2 ∧
      ∃ a, zlog_level_get default_levels (zlog_level_atoi default_levels (some p.1)) = some a ∧
        a.int_level = p.2 ∧ a.str_uppercase = p.1 := by
  intro p hp
  simp only [List.mem_cons, List.mem_singleton, List.not_mem_nil, or_false] at hp
  rcases hp with rfl | rfl | rfl | rfl | rfl | rfl | rfl
  · exact ⟨by decide, ⟨20, "DEBUG".toList, "debug".toList, 5, LOG_DEBUG⟩, by decide, rfl, rfl⟩
  · exact ⟨by decide, ⟨40, "INFO".toList, "info".toList, 4, LOG_INFO⟩, by decide, rfl, rfl⟩
  · exact ⟨by decide, ⟨60, "NOTICE".toList, "notice".toList, 6, LOG_NOTICE⟩, by decide, rfl,
      rfl⟩
  · exact ⟨by decide, ⟨80, "WARN".toList, "warn".toList, 4, LOG_WARNING⟩, by decide, rfl, rfl⟩
  · exact ⟨by decide, ⟨100, "ERROR".toList, "error".toList, 5, LOG_ERR⟩, by decide, rfl, rfl⟩
  · exact ⟨by decide, ⟨120, "FATAL".toList, "fatal".toList, 5, LOG_ALERT⟩, by decide, rfl, rfl⟩
  · exact ⟨by decide, ⟨254, "UNKNOWN".toList, "unknown".toList, 7, LOG_ERR⟩, by decide, rfl,
      rfl⟩

/-- C19: for every registry that satisfies the slot-index invariant and every
string, if `zlog_level_atoi` returns `c` with `1 <= c <= 254` then
`zlog_level_get(c)` returns the record in slot `c`, whose `int_level` is `c`
and whose `str_uppercase` equals the string ignoring case; and for each of
the default names DEBUG, INFO, NOTICE, WARN, ERROR, FATAL and UNKNOWN on
the default registry, `zlog_level_get(zlog_level_atoi(name))` is the record
carrying that name. -/
theorem zlog_level_round_trip (levels : zc_arraylist_t) (str : Option (List Char)) (c : Int)
    (hinv : slot_index_inv levels) (hc : zlog_level_atoi levels str = c)
    (h1 : 1 ≤ c) (h254 : c ≤ 254) :
    (∃ (s : List Char) (a : zlog_level_t), str = some s ∧
      zc_arraylist_get levels c = some a ∧ zlog_level_get levels c = some a ∧
      a.int_level = c ∧ STRICMP_eq (cstr s) a.str_uppercase = true) ∧
    (∀ p ∈ [("DEBUG".toList, (20 : Int)), ("INFO".toList, 40), ("NOTICE".toList, 60),
        ("WARN".toList, 80), ("ERROR".toList, 100), ("FATAL".toList, 120),
        ("UNKNOWN".toList, 254)],
      zlog_level_atoi default_levels (some p.1) = p.2 ∧
      ∃ a, zlog_level_get default_levels (zlog_level_atoi default_levels (some p.1)) = some a ∧
        a.int_level = p.2 ∧ a.str_uppercase = p.1) := by
  refine ⟨?_, default_levels_round_trip⟩
  obtain ⟨s, i, a, hs, hi, hslot, hm⟩ := zlog_level_atoi_found levels str c hc (by omega)
  have hia := hinv i a hslot
  subst hi
  have hget : zc_arraylist_get levels (i : Int) = some a := (zc_arraylist_get_some _ i a).mpr hslot
  refine ⟨s, a, hs, hget, ?_, hia.1, hm⟩
  have hp : ¬ ((i : Int) ≤ 0 ∨ (i : Int) > 254) := by omega
  simp only [zlog_level_get, zlog_level_get_run, hp, if_false, hget]

set_option maxRecDepth 100000 in
/-- Witness for C19: `debug` on the default registry. -/
theorem zlog_level_round_trip_witness :
    ∃ (s : List Char) (a : zlog_level_t), some "debug".toList = some s ∧
      zc_arraylist_get default_levels 20 = some a ∧ zlog_level_get default_levels 20 = some a ∧
      a.int_level = 20 ∧ STRICMP_eq (cstr s) a.str_uppercase = true :=
  (zlog_level_round_trip default_levels (some "debug".toList) 20 slot_index_inv_default
    (by decide) (by decide) (by decide)).1

/-! ## C20: the empty-name check -/

/-- C20: for every line on which the scan stores at least two conversions the
stored name is non-empty, so the test `*str == '\0'` is never true when it
is reached (`zlog_level_new` is the same function without it); and a line on
which the scan set matches no character stores no conversion and is rejected
as malformed. -/
theorem zlog_level_new_empty_name_unreachable (B : Nat) (u : locals_t) (line : List Char) :
    (2 ≤ (sscanf_level (cstr line) u.str u.l u.sl).nscan →
      (sscanf_level (cstr line) u.str u.l u.sl).str ≠ []) ∧
    ¬ (¬ (sscanf_level (cstr line) u.str u.l u.sl).nscan < 2 ∧
        ¬ ((sscanf_level (cstr line) u.str u.l u.sl).l < 0 ∨
            (sscanf_level (cstr line) u.str u.l u.sl).l > 255) ∧
        (sscanf_level (cstr line) u.str u.l u.sl).str = []) ∧
    zlog_level_new B u line =
      (let r := sscanf_level (cstr line) u.str u.l u.sl
       if r.nscan < 2 then none
       else if r.l < 0 ∨ r.l > 255 then none
       else if r.sl ≠ [] ∧ syslog_level_atoi r.sl = -187 then none
       else if B - 1 < r.str.length then none
       else if u.rc ≠ 0 then none
       else some (level_of_scan r)) ∧
    ((skip_space (cstr line)).takeWhile in_scanset = [] →
      (sscanf_level (cstr line) u.str u.l u.sl).nscan < 1 ∧ zlog_level_new B u line = none) := by
  have hf := (sscanf_level_facts (cstr line) u.str u.l u.sl).2.1
  have hne : 2 ≤ (sscanf_level (cstr line) u.str u.l u.sl).nscan →
      (sscanf_level (cstr line) u.str u.l u.sl).str ≠ [] := fun h => (hf (by omega)).1
  refine ⟨hne, ?_, ?_, ?_⟩
  · rintro ⟨h1, _, h3⟩
    exact hne (by omega) h3
  · rw [zlog_level_new_eq]
    simp only []
    by_cases h1 : (sscanf_level (cstr line) u.str u.l u.sl).nscan < 2
    · simp only [h1, if_true]
    · have h3 := hne (by omega)
      simp only [h1, h3, if_false]
  · intro hempty
    have hn : (sscanf_level (cstr line) u.str u.l u.sl).nscan < 1 := by
      unfold sscanf_level
      simp only [hempty]
      split <;> simp
    refine ⟨hn, ?_⟩
    unfold zlog_level_new
    have h2 : (sscanf_level (cstr line) u.str u.l u.sl).nscan < 2 := by omega
    simp only [h2, if_true]

end Zlog
